import Mathlib

/-!
# BankSystem.c : record store, account index, audit log and ledger operations

A shallow embedding of `src/BankSystem.c`.

* Strings are lists of characters (C strings without the terminating NUL).
* The `float` balance and amounts are exact rationals.
* `database/<n>.txt` files hold text: `saveAccount` writes it with the seven
  `fprintf` calls of the source and `getAccount` reads it back with the seven
  `fscanf` calls.
* Operator input is the sequence of values the successive `scanf` calls deliver.
* Every `fopen` whose failure the source tests for is an explicit boolean input.
-/

namespace BankSystem

/-! ## Data model -/

/-- Account record, the fields of the C `struct`. -/
structure Account where
  accountNumber : Int
  accountName : List Char
  pin : List Char
  balance : ℚ
  status : Int
  accountType : List Char
  idNumber : List Char
deriving DecidableEq

/-- Memory returned by `malloc` in `getAccount`, taken to be zero-filled. -/
def blankAccount : Account := ⟨0, [], [], 0, 0, [], []⟩

/-! ## Text output: the `fprintf` conversions -/

/-- Decimal digit character of a number below ten. -/
def digitChar : Nat → Char
  | 0 => '0' | 1 => '1' | 2 => '2' | 3 => '3' | 4 => '4'
  | 5 => '5' | 6 => '6' | 7 => '7' | 8 => '8' | _ => '9'

/-- Decimal digits of `n`, most significant first, pushed in front of `acc`;
the first argument bounds the number of divisions. -/
def fmtNatAux : Nat → Nat → List Char → List Char
  | 0, n, acc => digitChar (n % 10) :: acc
  | fuel + 1, n, acc =>
    if n < 10 then digitChar n :: acc
    else fmtNatAux fuel (n / 10) (digitChar (n % 10) :: acc)

/-- Decimal rendering of a natural number. -/
def fmtNat (n : Nat) : List Char := fmtNatAux n n []

/-- Conversion `%d` of `fprintf`. -/
def fmtInt (z : Int) : List Char :=
  if z < 0 then '-' :: fmtNat z.natAbs else fmtNat z.natAbs

/-- Nearest integer, ties to the even neighbour (the rounding `printf` applies). -/
def roundHalfEven (q : ℚ) : Int :=
  let f := ⌊q⌋
  let r := q - f
  if r < 1 / 2 then f
  else if 1 / 2 < r then f + 1
  else if f % 2 = 0 then f else f + 1

/-- Hundredths printed by `%.2f` for the magnitude of `q`. -/
def cents (q : ℚ) : Nat := (roundHalfEven (|q| * 100)).toNat

/-- Conversion `%.2f` of `fprintf`. -/
def fmt2 (q : ℚ) : List Char :=
  (if q < 0 then ['-'] else []) ++ fmtNat (cents q / 100) ++
    ['.', digitChar (cents q / 10 % 10), digitChar (cents q % 10)]

/-- Text written by the seven `fprintf` calls of `saveAccount`. -/
def saveAccountText (acc : Account) : List Char :=
  "Account No: ".toList ++ fmtInt acc.accountNumber ++ '\n' ::
  ("Account Name: ".toList ++ acc.accountName ++ '\n' ::
  ("PIN: ".toList ++ acc.pin ++ '\n' ::
  ("Balance: ".toList ++ fmt2 acc.balance ++ '\n' ::
  ("Status: ".toList ++ fmtInt acc.status ++ '\n' ::
  ("Account Type: ".toList ++ acc.accountType ++ '\n' ::
  ("ID Number: ".toList ++ acc.idNumber ++ ['\n']))))))

/-! ## Text input: the `fscanf` conversions -/

/-- C `isspace`: blank, tab, line feed, vertical tab, form feed, carriage return. -/
def isSpace (c : Char) : Bool := c.toNat == 32 || (9 ≤ c.toNat && c.toNat ≤ 13)

/-- C `isdigit`. -/
def isDigit (c : Char) : Bool := 48 ≤ c.toNat && c.toNat ≤ 57

/-- Value of a digit character. -/
def digitVal (c : Char) : Nat := c.toNat - 48

/-- Number denoted by a run of digit characters. -/
def natOfDigits (ds : List Char) : Nat := ds.foldl (fun v c => 10 * v + digitVal c) 0

/-- White space in a format, and the white space every conversion skips first. -/
def skipSpace (s : List Char) : List Char := s.dropWhile isSpace

/-- Conversion `%s`: skip white space, take the run of non-space characters.
Fails only at end of input. -/
def scanS (s : List Char) : Option (List Char) × List Char :=
  let r := skipSpace s
  let tok := r.takeWhile (fun c => !isSpace c)
  if tok = [] then (none, r) else (some tok, r.dropWhile (fun c => !isSpace c))

/-- Unsigned part of `%d`: a non-empty run of digits. -/
def scanNat (r : List Char) : Option Nat × List Char :=
  let ds := r.takeWhile isDigit
  if ds = [] then (none, r) else (some (natOfDigits ds), r.dropWhile isDigit)

/-- Conversion `%d`: skip white space, optional sign, digits. -/
def scanD (s : List Char) : Option Int × List Char :=
  match skipSpace s with
  | [] => (none, [])
  | c :: r =>
    if c = '-' then
      match scanNat r with
      | (none, r1) => (none, r1)
      | (some n, r1) => (some (-(n : Int)), r1)
    else if c = '+' then
      match scanNat r with
      | (none, r1) => (none, r1)
      | (some n, r1) => (some (n : Int), r1)
    else
      match scanNat (c :: r) with
      | (none, r1) => (none, r1)
      | (some n, r1) => (some (n : Int), r1)

/-- Magnitude read by `%f` in plain decimal notation: digits, optionally a point
and more digits, at least one digit in all. -/
def scanDecimal (r : List Char) : Option ℚ × List Char :=
  let ip := r.takeWhile isDigit
  let r1 := r.dropWhile isDigit
  match r1 with
  | [] => if ip = [] then (none, r1) else (some (natOfDigits ip : ℚ), r1)
  | c :: r2 =>
    if c = '.' then
      let fp := r2.takeWhile isDigit
      if ip = [] ∧ fp = [] then (none, r2)
      else (some ((natOfDigits ip : ℚ) + (natOfDigits fp : ℚ) / 10 ^ fp.length),
            r2.dropWhile isDigit)
    else if ip = [] then (none, r1) else (some (natOfDigits ip : ℚ), r1)

/-- Conversion `%f` on plain decimal notation (the notation `%.2f` writes):
skip white space, optional sign, decimal magnitude. -/
def scanF (s : List Char) : Option ℚ × List Char :=
  match skipSpace s with
  | [] => (none, [])
  | c :: r =>
    if c = '-' then
      match scanDecimal r with
      | (none, r1) => (none, r1)
      | (some q, r1) => (some (-q), r1)
    else if c = '+' then scanDecimal r
    else scanDecimal (c :: r)

/-- Reading `k` words into the scratch buffer `label` with `%s`. -/
def scanLabels : Nat → List Char → Bool × List Char
  | 0, s => (true, s)
  | k + 1, s =>
    match scanS s with
    | (none, r) => (false, r)
    | (some _, r) => scanLabels k r

/-- First `fscanf` of `getAccount`: format `"%s %s %d\n"`. A failed conversion
ends the call and leaves the remaining fields as they were. -/
def readAccountNo (a : Account) (s : List Char) : Account × List Char :=
  match scanLabels 2 s with
  | (false, r) => (a, r)
  | (true, r) =>
    match scanD r with
    | (none, r1) => (a, r1)
    | (some n, r1) => ({ a with accountNumber := n }, skipSpace r1)

/-- Second `fscanf`: format `"%s %s %s\n"` into `accountName`. -/
def readName (a : Account) (s : List Char) : Account × List Char :=
  match scanLabels 2 s with
  | (false, r) => (a, r)
  | (true, r) =>
    match scanS r with
    | (none, r1) => (a, r1)
    | (some v, r1) => ({ a with accountName := v }, skipSpace r1)

/-- Third `fscanf`: format `"%s %s\n"` into `pin`. -/
def readPin (a : Account) (s : List Char) : Account × List Char :=
  match scanLabels 1 s with
  | (false, r) => (a, r)
  | (true, r) =>
    match scanS r with
    | (none, r1) => (a, r1)
    | (some v, r1) => ({ a with pin := v }, skipSpace r1)

/-- Fourth `fscanf`: format `"%s %f\n"` into `balance`. -/
def readBalance (a : Account) (s : List Char) : Account × List Char :=
  match scanLabels 1 s with
  | (false, r) => (a, r)
  | (true, r) =>
    match scanF r with
    | (none, r1) => (a, r1)
    | (some q, r1) => ({ a with balance := q }, skipSpace r1)

/-- Fifth `fscanf`: format `"%s %d\n"` into `status`. -/
def readStatus (a : Account) (s : List Char) : Account × List Char :=
  match scanLabels 1 s with
  | (false, r) => (a, r)
  | (true, r) =>
    match scanD r with
    | (none, r1) => (a, r1)
    | (some n, r1) => ({ a with status := n }, skipSpace r1)

/-- Sixth `fscanf`: format `"%s %s %s\n"` into `accountType`. -/
def readType (a : Account) (s : List Char) : Account × List Char :=
  match scanLabels 2 s with
  | (false, r) => (a, r)
  | (true, r) =>
    match scanS r with
    | (none, r1) => (a, r1)
    | (some v, r1) => ({ a with accountType := v }, skipSpace r1)

/-- Seventh `fscanf`: format `"%s %s %s\n"` into `idNumber`. -/
def readId (a : Account) (s : List Char) : Account × List Char :=
  match scanLabels 2 s with
  | (false, r) => (a, r)
  | (true, r) =>
    match scanS r with
    | (none, r1) => (a, r1)
    | (some v, r1) => ({ a with idNumber := v }, skipSpace r1)

/-- The seven `fscanf` calls of `getAccount` run on the text of a record file. -/
def parseAccount (txt : List Char) : Account :=
  let p1 := readAccountNo blankAccount txt
  let p2 := readName p1.1 p1.2
  let p3 := readPin p2.1 p2.2
  let p4 := readBalance p3.1 p3.2
  let p5 := readStatus p4.1 p4.2
  let p6 := readType p5.1 p5.2
  (readId p6.1 p6.2).1

/-! ## Persistent state -/

/-- One line of `database/transaction.log`, without its time stamp. -/
inductive LogEntry
  | create (n : Int)
  | delete (n : Int)
  | deposit (n : Int) (amount : ℚ)
  | withdrawal (n : Int) (amount : ℚ)
  | remittance (sender receiver : Int) (amount fee : ℚ)
deriving DecidableEq

/-- The `database` directory: record files by account number, the numbers listed
in `index.txt` in file order, and the lines of `transaction.log`. -/
structure Bank where
  files : Int → Option (List Char)
  index : List Int
  log : List LogEntry

/-- Function `logTransaction`: append a line if the log file opens. -/
def logTransaction (s : Bank) (e : LogEntry) (opens : Bool) : Bank :=
  if opens then { s with log := s.log ++ [e] } else s

/-- Function `saveAccount`: rewrite the record file of `acc` if it opens for
writing; the second component is the returned flag. -/
def saveAccount (s : Bank) (acc : Account) (opens : Bool) : Bank × Bool :=
  if opens then
    ({ s with files := Function.update s.files acc.accountNumber (some (saveAccountText acc)) },
      true)
  else (s, false)

/-- Function `getAccount`: parse the record file, or signal a missing file by a
zero account number. -/
def getAccount (s : Bank) (num : Int) : Account :=
  match s.files num with
  | some txt => parseAccount txt
  | none => { blankAccount with accountNumber := 0 }

/-! ## Operator interaction -/

/-- What an operation printed last, or that it is still waiting for input. -/
inductive Report
  | noAccounts          -- the selection helper returned 0
  | notFound            -- "Account not found!" / "Sender account not found!"
  | receiverNotFound    -- "Receiver account not found!"
  | closed              -- "Account closed!" / "Sender account is closed!"
  | receiverClosed      -- "Receiver account is closed!"
  | sameAccount         -- "Sender and receiver must be different!"
  | idFailed            -- "ID verification failed!"
  | maxAttempts         -- "Max attempts exceeded."
  | cancelled           -- "Cancelled." / insufficient funds without retry
  | saveFailed          -- "Error: Failed to update account!" / "Failed to create account!"
  | indexError          -- "Error updating index file!"
  | success             -- "... successful!" / "... successfully!"
  | pending             -- blocked in a `scanf` with no input left
deriving DecidableEq

/-- Result of `listAllAccountsAndSelect`. -/
inductive Selection
  | ret0                -- returned 0
  | chosen (n : Int)    -- returned 1 with this number stored
  | pending             -- blocked in a `scanf` with no input left
deriving DecidableEq

/-- The listing loop of `listAllAccountsAndSelect`: numbers are read from the
index while fewer than 100 have been kept; a number is kept when its record loads. -/
def listAccounts (s : Bank) : List Int → List Int → List Int
  | [], kept => kept
  | num :: rest, kept =>
    if kept.length < 100 then
      if (getAccount s num).accountNumber ≠ 0 then
        listAccounts s rest (kept ++ [(getAccount s num).accountNumber])
      else listAccounts s rest kept
    else kept

/-- The prompt loop of `listAllAccountsAndSelect`. Each element of the input is
the outcome of one `scanf("%d", ...)`: `none` when no number could be read. -/
def selectLoop (accountNumbers : List Int) : List (Option Int) → Selection × List (Option Int)
  | [] => (.pending, [])
  | none :: rest => selectLoop accountNumbers rest
  | some selection :: rest =>
    if selection = 0 then
      match rest with
      | [] => (.pending, [])
      | none :: rest1 => selectLoop accountNumbers rest1
      | some n :: rest1 => (.chosen n, rest1)
    else if 1 ≤ selection ∧ selection ≤ accountNumbers.length then
      (.chosen (accountNumbers.getD (selection - 1).toNat 0), rest)
    else selectLoop accountNumbers rest

/-- Function `listAllAccountsAndSelect`; also returns the input left over. -/
def listAllAccountsAndSelect (s : Bank) (indexOpens : Bool) (sels : List (Option Int)) :
    Selection × List (Option Int) :=
  if indexOpens then
    let accountNumbers := listAccounts s s.index []
    if accountNumbers.length = 0 then (.ret0, sels)
    else selectLoop accountNumbers sels
  else (.ret0, sels)

/-- Outcome of the three-attempt PIN loop. -/
inductive Auth
  | ok | failed | pending
deriving DecidableEq

/-- The loop `for(i = 0; i < 3; i++)` around `scanf("%4s", pin)` and `strcmp`:
`tries` attempts remain. -/
def authLoop (stored : List Char) : Nat → List (List Char) → Auth
  | 0, _ => .failed
  | _ + 1, [] => .pending
  | tries + 1, pin :: rest => if stored = pin then .ok else authLoop stored tries rest

/-- PIN check of every authenticated operation. -/
def authenticate (stored : List Char) (pins : List (List Char)) : Auth :=
  authLoop stored 3 pins

/-! ## Deposit and withdraw -/

/-- Input of `deposit` and `withdraw`. -/
structure CashIn where
  indexOpens : Bool               -- `fopen` of the index in the selection helper
  sels : List (Option Int)        -- numbers read by the selection helper
  pins : List (List Char)         -- strings read by `scanf("%4s", pin)`
  amounts : List (Option ℚ)       -- outcomes of `scanf("%f", &amount)`
  saveOpens : Bool                -- `fopen` in `saveAccount`
  logOpens : Bool                 -- `fopen` in `logTransaction`

/-- Amount loop of `deposit`: the first amount read that is positive and at most 50000. -/
def depositAmount : List (Option ℚ) → Option ℚ
  | [] => none
  | none :: rest => depositAmount rest
  | some amount :: rest =>
    if amount ≤ 0 then depositAmount rest
    else if amount > 50000 then depositAmount rest
    else some amount

/-- Function `deposit`. -/
def deposit (s : Bank) (inp : CashIn) : Bank × Report :=
  match (listAllAccountsAndSelect s inp.indexOpens inp.sels).1 with
  | .ret0 => (s, .noAccounts)
  | .pending => (s, .pending)
  | .chosen num =>
    let acc := getAccount s num
    if acc.accountNumber = 0 then (s, .notFound)
    else if acc.status = 1 then (s, .closed)
    else
      match authenticate acc.pin inp.pins with
      | .pending => (s, .pending)
      | .failed => (s, .maxAttempts)
      | .ok =>
        match depositAmount inp.amounts with
        | none => (s, .pending)
        | some amount =>
          match saveAccount s { acc with balance := acc.balance + amount } inp.saveOpens with
          | (s1, false) => (s1, .saveFailed)
          | (s1, true) => (logTransaction s1 (.deposit num amount) inp.logOpens, .success)

/-- Amount loop of `withdraw`: the first amount read that is positive and at most
the balance. -/
def withdrawAmount (balance : ℚ) : List (Option ℚ) → Option ℚ
  | [] => none
  | none :: rest => withdrawAmount balance rest
  | some amount :: rest =>
    if amount ≤ 0 then withdrawAmount balance rest
    else if amount > balance then withdrawAmount balance rest
    else some amount

/-- Function `withdraw`. -/
def withdraw (s : Bank) (inp : CashIn) : Bank × Report :=
  match (listAllAccountsAndSelect s inp.indexOpens inp.sels).1 with
  | .ret0 => (s, .noAccounts)
  | .pending => (s, .pending)
  | .chosen num =>
    let acc := getAccount s num
    if acc.accountNumber = 0 then (s, .notFound)
    else if acc.status = 1 then (s, .closed)
    else
      match authenticate acc.pin inp.pins with
      | .pending => (s, .pending)
      | .failed => (s, .maxAttempts)
      | .ok =>
        match withdrawAmount acc.balance inp.amounts with
        | none => (s, .pending)
        | some amount =>
          match saveAccount s { acc with balance := acc.balance - amount } inp.saveOpens with
          | (s1, false) => (s1, .saveFailed)
          | (s1, true) => (logTransaction s1 (.withdrawal num amount) inp.logOpens, .success)

/-! ## Remittance -/

/-- Input of `remittance`. -/
structure RemitIn where
  senderIndexOpens : Bool         -- `fopen` of the index, first selection
  receiverIndexOpens : Bool       -- `fopen` of the index, second selection
  sels : List (Option Int)        -- numbers read by the two selections, in order
  pins : List (List Char)         -- strings read by `scanf("%4s", pin)`
  amounts : List (Option ℚ)       -- outcomes of `scanf("%f", &amount)`
  retries : List Char             -- characters read by `scanf(" %c", &retry)`
  saveSenderOpens : Bool          -- `fopen` in `saveAccount(acc1)`
  saveReceiverOpens : Bool        -- `fopen` in `saveAccount(acc2)`
  logOpens : Bool                 -- `fopen` in `logTransaction`

/-- The fee branches inside the amount loop: the variable `fee` is assigned in
the two cross-type branches and keeps its value in the last one. -/
def remitFee (senderType receiverType : List Char) (amount fee : ℚ) : ℚ :=
  if senderType = "Savings".toList ∧ receiverType = "Current".toList then amount * 0.02
  else if senderType = "Current".toList ∧ receiverType = "Savings".toList then amount * 0.03
  else fee

/-- How the amount loop of `remittance` ends. -/
inductive RemitAmount
  | accepted (amount fee : ℚ)
  | aborted
  | pending
deriving DecidableEq

/-- Amount loop of `remittance`; the first argument is the variable `fee`. -/
def remitLoop (acc1 acc2 : Account) : ℚ → List (Option ℚ) → List Char → RemitAmount
  | _, [], _ => .pending
  | fee, none :: rest, retries => remitLoop acc1 acc2 fee rest retries
  | fee, some amount :: rest, retries =>
    if amount ≤ 0 then remitLoop acc1 acc2 fee rest retries
    else
      if acc1.balance < amount + remitFee acc1.accountType acc2.accountType amount fee then
        match retries with
        | [] => .pending
        | retry :: retries1 =>
          if retry = 'y' ∨ retry = 'Y' then
            remitLoop acc1 acc2 (remitFee acc1.accountType acc2.accountType amount fee)
              rest retries1
          else .aborted
      else .accepted amount (remitFee acc1.accountType acc2.accountType amount fee)

/-- Function `remittance`. -/
def remittance (s : Bank) (inp : RemitIn) : Bank × Report :=
  match listAllAccountsAndSelect s inp.senderIndexOpens inp.sels with
  | (.ret0, _) => (s, .noAccounts)
  | (.pending, _) => (s, .pending)
  | (.chosen sender, sels1) =>
    match (listAllAccountsAndSelect s inp.receiverIndexOpens sels1).1 with
    | .ret0 => (s, .noAccounts)
    | .pending => (s, .pending)
    | .chosen receiver =>
      if sender = receiver then (s, .sameAccount)
      else
        let acc1 := getAccount s sender
        let acc2 := getAccount s receiver
        if acc1.accountNumber = 0 then (s, .notFound)
        else if acc2.accountNumber = 0 then (s, .receiverNotFound)
        else if acc1.status = 1 then (s, .closed)
        else if acc2.status = 1 then (s, .receiverClosed)
        else
          match authenticate acc1.pin inp.pins with
          | .pending => (s, .pending)
          | .failed => (s, .maxAttempts)
          | .ok =>
            match remitLoop acc1 acc2 0 inp.amounts inp.retries with
            | .pending => (s, .pending)
            | .aborted => (s, .cancelled)
            | .accepted amount fee =>
              match saveAccount s { acc1 with balance := acc1.balance - (amount + fee) }
                  inp.saveSenderOpens with
              | (s1, false) => (s1, .saveFailed)
              | (s1, true) =>
                match saveAccount s1 { acc2 with balance := acc2.balance + amount }
                    inp.saveReceiverOpens with
                | (s2, false) => (s2, .saveFailed)
                | (s2, true) =>
                  (logTransaction s2 (.remittance sender receiver amount fee) inp.logOpens,
                    .success)

/-! ## Create -/

/-- Input of `createAccount`. -/
structure CreateIn where
  r1 : Nat                        -- first `rand()`
  r2 : Nat                        -- second `rand()`
  indexReadOpens : Bool           -- `fopen("database/index.txt", "r")`
  name : List Char                -- string read by `scanf("%49s", ...)`
  ids : List (List Char)          -- strings read by `scanf("%19s", ...)`
  types : List (List Char)        -- strings read by `scanf("%9s", ...)`
  pins : List (List Char)         -- strings read by `scanf("%4s", ...)`
  saveOpens : Bool                -- `fopen` in `saveAccount`
  indexAppendOpens : Bool         -- `fopen("database/index.txt", "a")`
  logOpens : Bool                 -- `fopen` in `logTransaction`

/-- The random candidate: `digits = 7 + rand() % 3`, then a draw in that range. -/
def candidateNumber (r1 r2 : Nat) : Int :=
  if 7 + r1 % 3 = 7 then ((1000000 + r2 % 9000000 : Nat) : Int)
  else if 7 + r1 % 3 = 8 then ((10000000 + r2 % 90000000 : Nat) : Int)
  else ((100000000 + r2 % 900000000 : Nat) : Int)

/-- The scan of the index in `createAccount`: at the first entry equal to `num`
the number is incremented and the scan stops. -/
def checkCollision (num : Int) : List Int → Int
  | [] => num
  | existing :: rest => if existing = num then num + 1 else checkCollision num rest

/-- The account number `createAccount` assigns. -/
def assignNumber (index : List Int) (indexReadOpens : Bool) (r1 r2 : Nat) : Int :=
  if indexReadOpens then checkCollision (candidateNumber r1 r2) index
  else candidateNumber r1 r2

/-- ID loop of `createAccount`: the first string of length at least 4. -/
def readIdNumber : List (List Char) → Option (List Char)
  | [] => none
  | t :: rest => if t.length ≥ 4 then some t else readIdNumber rest

/-- Type loop of `createAccount`: the first string equal to `Savings` or `Current`. -/
def readAccountType : List (List Char) → Option (List Char)
  | [] => none
  | t :: rest =>
    if t = "Savings".toList ∨ t = "Current".toList then some t else readAccountType rest

/-- PIN loop of `createAccount`: the first string of four digits. -/
def readNewPin : List (List Char) → Option (List Char)
  | [] => none
  | t :: rest => if t.length = 4 ∧ t.all isDigit then some t else readNewPin rest

/-- Function `createAccount`. -/
def createAccount (s : Bank) (inp : CreateIn) : Bank × Report :=
  let num := assignNumber s.index inp.indexReadOpens inp.r1 inp.r2
  match readIdNumber inp.ids with
  | none => (s, .pending)
  | some idNumber =>
    match readAccountType inp.types with
    | none => (s, .pending)
    | some accountType =>
      match readNewPin inp.pins with
      | none => (s, .pending)
      | some pin =>
        let acc : Account :=
          { accountNumber := num, accountName := inp.name, pin := pin, balance := 0,
            status := 0, accountType := accountType, idNumber := idNumber }
        match saveAccount s acc inp.saveOpens with
        | (s1, false) => (s1, .saveFailed)
        | (s1, true) =>
          let s2 := if inp.indexAppendOpens then
              { s1 with index := s1.index ++ [acc.accountNumber] } else s1
          (logTransaction s2 (.create acc.accountNumber) inp.logOpens, .success)

/-! ## Delete -/

/-- Input of `deleteAccount`. -/
structure DeleteIn where
  indexOpens : Bool               -- `fopen` of the index in the selection helper
  sels : List (Option Int)        -- numbers read by the selection helper
  id : List Char                  -- string read by `scanf("%s", id)`
  pins : List (List Char)         -- strings read by `scanf("%4s", pin)`
  confirm : Int                   -- value of `confirm` after `scanf("%d", &confirm)`
  indexReadOpens : Bool           -- `fopen("database/index.txt", "r")`
  tempOpens : Bool                -- `fopen("database/temp.txt", "w")`
  logOpens : Bool                 -- `fopen` in `logTransaction`

/-- The copy loop of `deleteAccount`: entries of the index different from `num`
are appended to the temporary file, which then replaces the index. -/
def rebuildIndex (num : Int) : List Int → List Int → List Int
  | [], temp => temp
  | tmp :: rest, temp =>
    if tmp ≠ num then rebuildIndex num rest (temp ++ [tmp]) else rebuildIndex num rest temp

/-- Function `deleteAccount`. -/
def deleteAccount (s : Bank) (inp : DeleteIn) : Bank × Report :=
  match (listAllAccountsAndSelect s inp.indexOpens inp.sels).1 with
  | .ret0 => (s, .noAccounts)
  | .pending => (s, .pending)
  | .chosen num =>
    let acc := getAccount s num
    if acc.accountNumber = 0 then (s, .notFound)
    else if acc.idNumber.length < 4 ∨
        acc.idNumber.drop (acc.idNumber.length - 4) ≠ inp.id then (s, .idFailed)
    else
      match authenticate acc.pin inp.pins with
      | .pending => (s, .pending)
      | .failed => (s, .maxAttempts)
      | .ok =>
        if inp.confirm = 1 then
          let s1 : Bank := { s with files := Function.update s.files acc.accountNumber none }
          if inp.indexReadOpens ∧ inp.tempOpens then
            (logTransaction { s1 with index := rebuildIndex num s1.index [] } (.delete num)
              inp.logOpens, .success)
          else (s1, .indexError)
        else (s, .cancelled)

/-! ## Specification vocabulary -/

/-- No white space in a string. -/
def NoSpace (l : List Char) : Prop := ∀ c ∈ l, isSpace c = false

/-- A non-empty string without white space: what a `%s` conversion delivers. -/
def Word (l : List Char) : Prop := l ≠ [] ∧ NoSpace l

instance (l : List Char) : Decidable (NoSpace l) :=
  inferInstanceAs (Decidable (∀ c ∈ l, isSpace c = false))

instance (l : List Char) : Decidable (Word l) :=
  inferInstanceAs (Decidable (l ≠ [] ∧ NoSpace l))

/-- The value that `%.2f` prints for `q`: `q` rounded to hundredths. -/
def round2 (q : ℚ) : ℚ := (if q < 0 then -1 else 1) * ((cents q : ℚ) / 100)

/-- The string fields of a record are words. -/
def Account.Wordy (acc : Account) : Prop :=
  Word acc.accountName ∧ Word acc.pin ∧ Word acc.accountType ∧ Word acc.idNumber

instance (acc : Account) : Decidable acc.Wordy :=
  inferInstanceAs (Decidable
    (Word acc.accountName ∧ Word acc.pin ∧ Word acc.accountType ∧ Word acc.idNumber))

/-- Every record file is the text `saveAccount` writes for a record that carries
the file's number and whose string fields are words. -/
def Bank.WellFormed (s : Bank) : Prop :=
  ∀ n txt, s.files n = some txt →
    ∃ acc : Account, acc.Wordy ∧ acc.accountNumber = n ∧ txt = saveAccountText acc

/-- Every persisted account has a balance of at least zero. -/
def Bank.NonNegative (s : Bank) : Prop :=
  ∀ n txt, s.files n = some txt → 0 ≤ (parseAccount txt).balance

/-- The fee schedule in the words of the specification: 2% of the amount from
Savings to Current, 3% from Current to Savings, nothing otherwise. -/
def feeSchedule (senderType receiverType : List Char) (amount : ℚ) : ℚ :=
  if senderType = "Savings".toList ∧ receiverType = "Current".toList then amount * 2 / 100
  else if senderType = "Current".toList ∧ receiverType = "Savings".toList then amount * 3 / 100
  else 0

/-- An entry of the amount prompt that `deposit` turns down: not a number, not
positive, or above 50000. -/
def DepositRejects : Option ℚ → Prop
  | none => True
  | some a => a ≤ 0 ∨ 50000 < a

instance (x : Option ℚ) : Decidable (DepositRejects x) :=
  match x with
  | none => isTrue trivial
  | some a => inferInstanceAs (Decidable (a ≤ 0 ∨ 50000 < a))

/-- An entry of the amount prompt that `withdraw` turns down: not a number, not
positive, or above the balance. -/
def WithdrawRejects (balance : ℚ) : Option ℚ → Prop
  | none => True
  | some a => a ≤ 0 ∨ balance < a

instance (balance : ℚ) (x : Option ℚ) : Decidable (WithdrawRejects balance x) :=
  match x with
  | none => isTrue trivial
  | some a => inferInstanceAs (Decidable (a ≤ 0 ∨ balance < a))

/-- Record and index entry of account `x` are both absent or both present. -/
def Bank.BothOrNeither (s : Bank) (x : Int) : Prop :=
  (s.files x = none ∧ x ∉ s.index) ∨ (s.files x ≠ none ∧ x ∈ s.index)

instance (s : Bank) (x : Int) : Decidable (s.BothOrNeither x) :=
  inferInstanceAs (Decidable
    ((s.files x = none ∧ x ∉ s.index) ∨ (s.files x ≠ none ∧ x ∈ s.index)))

/-- The numbers in the index are exactly the numbers that have a record file. -/
def Bank.Consistent (s : Bank) : Prop := ∀ n, n ∈ s.index ↔ s.files n ≠ none

/-- Two records agree in every field except, possibly, the balance. -/
def Account.SameButBalance (a b : Account) : Prop :=
  a.accountNumber = b.accountNumber ∧ a.accountName = b.accountName ∧ a.pin = b.pin ∧
  a.status = b.status ∧ a.accountType = b.accountType ∧ a.idNumber = b.idNumber

instance (a b : Account) : Decidable (a.SameButBalance b) :=
  inferInstanceAs (Decidable
    (a.accountNumber = b.accountNumber ∧ a.accountName = b.accountName ∧ a.pin = b.pin ∧
      a.status = b.status ∧ a.accountType = b.accountType ∧ a.idNumber = b.idNumber))

/-- One monetary operation together with its input. -/
inductive MoneyOp
  | deposit (inp : CashIn)
  | withdraw (inp : CashIn)
  | remittance (inp : RemitIn)

/-- The bank after one monetary operation. -/
def MoneyOp.apply (s : Bank) : MoneyOp → Bank
  | .deposit inp => (BankSystem.deposit s inp).1
  | .withdraw inp => (BankSystem.withdraw s inp).1
  | .remittance inp => (BankSystem.remittance s inp).1

/-- The bank after a sequence of monetary operations, run one after the other as
the menu loop does. -/
def runMoneyOps (s : Bank) (ops : List MoneyOp) : Bank := ops.foldl MoneyOp.apply s

/-! ## Sample data -/

/-- A bank without accounts. -/
def emptyBank : Bank := ⟨fun _ => none, [], []⟩

/-- A Savings account holding 2000. -/
def aliceAccount : Account :=
  ⟨1000001, "alice".toList, "1234".toList, 2000, 0, "Savings".toList, "ID1234".toList⟩

/-- A Current account holding 50. -/
def bobAccount : Account :=
  ⟨1000002, "bob".toList, "4321".toList, 50, 0, "Current".toList, "ID5678".toList⟩

/-- A bank with the two sample accounts saved and indexed. -/
def sampleBank : Bank :=
  ⟨fun n =>
    if n = 1000001 then some (saveAccountText aliceAccount)
    else if n = 1000002 then some (saveAccountText bobAccount)
    else none,
   [1000001, 1000002], []⟩

/-- Deposit of 100 into the first listed account. -/
def sampleDeposit : CashIn := ⟨true, [some 1], ["1234".toList], [some 100], true, true⟩

/-- Withdrawal of 30 from the first listed account. -/
def sampleWithdraw : CashIn := ⟨true, [some 1], ["1234".toList], [some 30], true, true⟩

/-- Transfer of 1000 from the first listed account to the second. -/
def sampleRemit : RemitIn :=
  ⟨true, true, [some 1, some 2], ["1234".toList], [some 1000], [], true, true, true⟩

/-- Creation of an account for "carol": one ID, one type and one PIN are turned
down before a valid one is entered. -/
def sampleCreate : CreateIn :=
  ⟨0, 4000000, true, "carol".toList, ["12".toList, "ID9999".toList],
    ["Saving".toList, "Savings".toList], ["12a4".toList, "5678".toList], true, true, true⟩

/-- Confirmed deletion of the first listed account; every file opens. -/
def sampleDelete : DeleteIn :=
  ⟨true, [some 1], "1234".toList, ["1234".toList], 1, true, true, true⟩

/-- Confirmed deletion of the first listed account; the index does not open for
reading after the record file was removed. -/
def sampleDeleteIndexFails : DeleteIn :=
  ⟨true, [some 1], "1234".toList, ["1234".toList], 1, false, true, true⟩

/-- Confirmed deletion of the first listed account; the temporary file does not
open for writing. -/
def sampleDeleteTempFails : DeleteIn :=
  ⟨true, [some 1], "1234".toList, ["1234".toList], 1, true, false, true⟩

/-- Deposit into the first listed account with three wrong PINs, then the
right one. -/
def sampleWrongPins : CashIn :=
  ⟨true, [some 1], ["0000".toList, "1111".toList, "2222".toList, "1234".toList], [some 100],
    true, true⟩

/-- Creation of an account for "carol" whose random candidate is 1000001, the
number of the first sample account. -/
def sampleCreateCollides : CreateIn :=
  ⟨0, 1, true, "carol".toList, ["ID9999".toList], ["Savings".toList], ["5678".toList],
    true, true, true⟩

/-- Creation of an account for "carol" whose random candidate is 999999999, the
largest nine-digit number. -/
def sampleCreateLargest : CreateIn :=
  ⟨2, 899999999, true, "carol".toList, ["ID9999".toList], ["Savings".toList],
    ["5678".toList], true, true, true⟩

/-- Deposit of 100 into the first listed account; the record file does not open
for writing. -/
def sampleDepositSaveFails : CashIn :=
  ⟨true, [some 1], ["1234".toList], [some 100], false, true⟩

/-- A Savings account holding 10 whose status is Closed. -/
def closedAccount : Account :=
  ⟨1000003, "dave".toList, "9999".toList, 10, 1, "Savings".toList, "ID0003".toList⟩

/-- A bank with the first sample account and the closed account. -/
def closedBank : Bank :=
  ⟨fun n =>
    if n = 1000001 then some (saveAccountText aliceAccount)
    else if n = 1000003 then some (saveAccountText closedAccount)
    else none,
   [1000001, 1000003], []⟩

/-- Deposit of 5 into the second listed account, with its right PIN. -/
def closedDeposit : CashIn := ⟨true, [some 2], ["9999".toList], [some 5], true, true⟩

/-- Transfer of 5 from the second listed account to the first. -/
def closedRemitSender : RemitIn :=
  ⟨true, true, [some 2, some 1], ["9999".toList], [some 5], [], true, true, true⟩

/-- Transfer of 5 from the first listed account to the second. -/
def closedRemitReceiver : RemitIn :=
  ⟨true, true, [some 1, some 2], ["1234".toList], [some 5], [], true, true, true⟩

/-- Transfer in which the first listed account is selected as sender and as
receiver. -/
def sampleSelfRemit : RemitIn :=
  ⟨true, true, [some 1, some 1], ["1234".toList], [some 5], [], true, true, true⟩

/-- Transfer from the first listed account (Savings, 2000) to the second
(Current): 5000 and 1990 are turned down for insufficient funds, each followed
by a retry, then 100 is accepted. -/
def sampleRetryRemit : RemitIn :=
  ⟨true, true, [some 1, some 2], ["1234".toList], [some 5000, some 1990, some 100],
    ['y', 'Y'], true, true, true⟩

/-! ## Record loads -/

/-- The arguments of the `getAccount` calls made by the listing loop of
`listAllAccountsAndSelect`, in order: one call for every number read from the
index while fewer than 100 accounts have been kept. -/
def listLoads (s : Bank) : List Int → List Int → List Int
  | [], _ => []
  | num :: rest, kept =>
    if kept.length < 100 then
      if (getAccount s num).accountNumber ≠ 0 then
        num :: listLoads s rest (kept ++ [(getAccount s num).accountNumber])
      else num :: listLoads s rest kept
    else []

/-- The `getAccount` calls of one run of `listAllAccountsAndSelect`. -/
def selectionLoads (s : Bank) (indexOpens : Bool) : List Int :=
  if indexOpens then listLoads s s.index [] else []

/-- The `getAccount` calls of one run of `remittance`, in order: those of the two
selections, then, past the test `sender == receiver`, the loads of the sender
and of the receiver. -/
def remittanceLoads (s : Bank) (inp : RemitIn) : List Int :=
  match listAllAccountsAndSelect s inp.senderIndexOpens inp.sels with
  | (.ret0, _) => selectionLoads s inp.senderIndexOpens
  | (.pending, _) => selectionLoads s inp.senderIndexOpens
  | (.chosen sender, sels1) =>
    selectionLoads s inp.senderIndexOpens ++ selectionLoads s inp.receiverIndexOpens ++
      match (listAllAccountsAndSelect s inp.receiverIndexOpens sels1).1 with
      | .ret0 => []
      | .pending => []
      | .chosen receiver => if sender = receiver then [] else [sender, receiver]

/-! ## Lemmas: number rendering and scanning -/

theorem digitChar_isDigit (d : Nat) : isDigit (digitChar d) = true := by
  unfold digitChar
  split <;> rfl

theorem digitVal_digitChar (d : Nat) (h : d < 10) : digitVal (digitChar d) = d := by
  interval_cases d <;> rfl

theorem isDigit_not_isSpace (c : Char) (h : isDigit c = true) : isSpace c = false := by
  unfold isDigit at h
  unfold isSpace
  simp only [Bool.and_eq_true, decide_eq_true_eq] at h
  simp only [Bool.or_eq_false_iff, beq_eq_false_iff_ne, ne_eq, Bool.and_eq_false_iff, decide_eq_false_iff_not]
  omega

theorem takeWhile_append_stop (p : Char → Bool) (l rest : List Char)
    (hl : ∀ c ∈ l, p c = true) (hr : ∀ c ∈ rest.head?, p c = false) :
    (l ++ rest).takeWhile p = l := by
  induction l with
  | nil =>
    cases rest with
    | nil => rfl
    | cons c r => simp [List.takeWhile, hr c (by simp)]
  | cons a l ih =>
    have ha : p a = true := hl a (by simp)
    rw [List.cons_append, List.takeWhile_cons, ha, if_pos rfl,
      ih (fun c hc => hl c (by simp [hc]))]

theorem dropWhile_append_stop (p : Char → Bool) (l rest : List Char)
    (hl : ∀ c ∈ l, p c = true) (hr : ∀ c ∈ rest.head?, p c = false) :
    (l ++ rest).dropWhile p = rest := by
  induction l with
  | nil =>
    cases rest with
    | nil => rfl
    | cons c r => simp [List.dropWhile, hr c (by simp)]
  | cons a l ih =>
    have ha : p a = true := hl a (by simp)
    rw [List.cons_append, List.dropWhile_cons, ha, if_pos rfl,
      ih (fun c hc => hl c (by simp [hc]))]

theorem natOfDigits_append (l : List Char) (c : Char) :
    natOfDigits (l ++ [c]) = 10 * natOfDigits l + digitVal c := by
  simp [natOfDigits, List.foldl_append]

theorem fmtNatAux_append (fuel n : Nat) (acc : List Char) :
    fmtNatAux fuel n acc = fmtNatAux fuel n [] ++ acc := by
  induction fuel generalizing n acc with
  | zero => simp [fmtNatAux]
  | succ k ih =>
    unfold fmtNatAux
    split
    · simp
    · rw [ih, ih (n / 10) [digitChar (n % 10)]]
      simp

theorem fmtNatAux_spec (fuel n : Nat) (h : n ≤ fuel) :
    (∀ c ∈ fmtNatAux fuel n [], isDigit c = true) ∧ fmtNatAux fuel n [] ≠ [] ∧
      natOfDigits (fmtNatAux fuel n []) = n := by
  induction fuel generalizing n with
  | zero =>
    have : n = 0 := by omega
    subst this
    refine ⟨?_, ?_, ?_⟩ <;> simp [fmtNatAux, digitChar_isDigit]
    rfl
  | succ k ih =>
    unfold fmtNatAux
    split
    · rename_i hlt
      refine ⟨?_, ?_, ?_⟩
      · simp [digitChar_isDigit]
      · simp
      · have := digitVal_digitChar n hlt
        simp [natOfDigits, this]
    · rename_i hge
      have hk : n / 10 ≤ k := by omega
      obtain ⟨h1, h2, h3⟩ := ih (n / 10) hk
      rw [fmtNatAux_append]
      refine ⟨?_, ?_, ?_⟩
      · intro c hc
        rcases List.mem_append.mp hc with hc | hc
        · exact h1 c hc
        · simp at hc; subst hc; exact digitChar_isDigit _
      · simp
      · rw [natOfDigits_append, h3, digitVal_digitChar _ (Nat.mod_lt _ (by norm_num))]
        omega

theorem fmtNat_isDigit (n : Nat) : ∀ c ∈ fmtNat n, isDigit c = true :=
  (fmtNatAux_spec n n le_rfl).1

theorem fmtNat_ne_nil (n : Nat) : fmtNat n ≠ [] := (fmtNatAux_spec n n le_rfl).2.1

theorem natOfDigits_fmtNat (n : Nat) : natOfDigits (fmtNat n) = n :=
  (fmtNatAux_spec n n le_rfl).2.2

theorem scanNat_fmtNat (n : Nat) (rest : List Char) (hr : ∀ c ∈ rest.head?, isDigit c = false) :
    scanNat (fmtNat n ++ rest) = (some n, rest) := by
  unfold scanNat
  simp only [takeWhile_append_stop isDigit _ _ (fmtNat_isDigit n) hr,
    dropWhile_append_stop isDigit _ _ (fmtNat_isDigit n) hr, fmtNat_ne_nil, if_false,
    natOfDigits_fmtNat]

theorem head_fmtNat (n : Nat) : ∃ c tl, fmtNat n = c :: tl ∧ isDigit c = true := by
  cases h : fmtNat n with
  | nil => exact absurd h (fmtNat_ne_nil n)
  | cons c tl => exact ⟨c, tl, rfl, fmtNat_isDigit n c (by simp [h])⟩

theorem isDigit_ne_minus (c : Char) (h : isDigit c = true) : c ≠ '-' := by
  rintro rfl; revert h; decide

theorem isDigit_ne_plus (c : Char) (h : isDigit c = true) : c ≠ '+' := by
  rintro rfl; revert h; decide

theorem skipSpace_of_head (c : Char) (r : List Char) (h : isSpace c = false) :
    skipSpace (c :: r) = c :: r := by
  simp [skipSpace, List.dropWhile_cons, h]

theorem skipSpace_blank (r : List Char) : skipSpace (' ' :: r) = skipSpace r := by
  simp [skipSpace, List.dropWhile_cons, isSpace]

theorem scanD_fmtInt (z : Int) (rest : List Char) (hr : ∀ c ∈ rest.head?, isDigit c = false) :
    scanD (' ' :: (fmtInt z ++ rest)) = (some z, rest) := by
  unfold scanD fmtInt
  rw [skipSpace_blank]
  by_cases hz : z < 0
  · rw [if_pos hz, List.cons_append, skipSpace_of_head _ _ (by decide)]
    simp only [if_true, scanNat_fmtNat _ _ hr]
    congr 2
    omega
  · rw [if_neg hz]
    obtain ⟨c, tl, hc, hd⟩ := head_fmtNat z.natAbs
    have hs := scanNat_fmtNat z.natAbs rest hr
    rw [hc] at hs ⊢
    rw [List.cons_append, skipSpace_of_head _ _ (isDigit_not_isSpace c hd)]
    simp only [isDigit_ne_minus c hd, isDigit_ne_plus c hd, if_false]
    rw [List.cons_append] at hs
    rw [hs]
    have hz2 : ((z.natAbs : Nat) : Int) = z := Int.natAbs_of_nonneg (not_lt.mp hz)
    simp only [hz2]

theorem cents_digits (c : Nat) :
    ((c / 100 : Nat) : ℚ) + ((10 * (c / 10 % 10) + c % 10 : Nat) : ℚ) / 10 ^ 2 = (c : ℚ) / 100 := by
  have h : 100 * (c / 100) + (10 * (c / 10 % 10) + c % 10) = c := by omega
  have h2 : ((100 * (c / 100) + (10 * (c / 10 % 10) + c % 10) : Nat) : ℚ) = (c : ℚ) := by
    rw [h]
  push_cast at h2 ⊢
  linarith

theorem scanDecimal_fmt (c : Nat) (rest : List Char) (hr : ∀ x ∈ rest.head?, isDigit x = false) :
    scanDecimal (fmtNat (c / 100) ++
      '.' :: digitChar (c / 10 % 10) :: digitChar (c % 10) :: rest) =
      (some ((c : ℚ) / 100), rest) := by
  unfold scanDecimal
  have hdot : ∀ x ∈ ('.' :: digitChar (c / 10 % 10) :: digitChar (c % 10) :: rest).head?,
      isDigit x = false := by
    intro x hx
    simp at hx
    subst hx
    decide
  have hfrac : ∀ x ∈ [digitChar (c / 10 % 10), digitChar (c % 10)], isDigit x = true := by
    intro x hx
    simp at hx
    rcases hx with rfl | rfl <;> exact digitChar_isDigit _
  have htk : (digitChar (c / 10 % 10) :: digitChar (c % 10) :: rest).takeWhile isDigit =
      [digitChar (c / 10 % 10), digitChar (c % 10)] :=
    takeWhile_append_stop isDigit [_, _] rest hfrac hr
  have hdr : (digitChar (c / 10 % 10) :: digitChar (c % 10) :: rest).dropWhile isDigit = rest :=
    dropWhile_append_stop isDigit [_, _] rest hfrac hr
  simp only [takeWhile_append_stop isDigit _ _ (fmtNat_isDigit _) hdot,
    dropWhile_append_stop isDigit _ _ (fmtNat_isDigit _) hdot, if_true, htk, hdr,
    fmtNat_ne_nil, false_and, if_false, natOfDigits_fmtNat]
  congr 2
  have h1 : natOfDigits [digitChar (c / 10 % 10), digitChar (c % 10)] =
      10 * (c / 10 % 10) + c % 10 := by
    have a1 := digitVal_digitChar (c / 10 % 10) (Nat.mod_lt _ (by norm_num))
    have a2 := digitVal_digitChar (c % 10) (Nat.mod_lt _ (by norm_num))
    simp [natOfDigits, a1, a2]
  rw [h1]
  exact cents_digits c

theorem scanF_fmt2 (q : ℚ) (rest : List Char) (hr : ∀ x ∈ rest.head?, isDigit x = false) :
    scanF (' ' :: (fmt2 q ++ rest)) = (some (round2 q), rest) := by
  unfold scanF fmt2 round2
  rw [skipSpace_blank]
  by_cases hq : q < 0
  · simp only [if_pos hq, List.cons_append, List.nil_append, List.append_assoc,
      List.singleton_append]
    rw [skipSpace_of_head _ _ (by decide)]
    simp only [if_true, scanDecimal_fmt _ _ hr]
    congr 2
    ring
  · simp only [if_neg hq, List.cons_append, List.nil_append, List.append_assoc]
    obtain ⟨c, tl, hc, hd⟩ := head_fmtNat (cents q / 100)
    have hs := scanDecimal_fmt (cents q) rest hr
    rw [hc] at hs ⊢
    rw [List.cons_append] at hs ⊢
    rw [skipSpace_of_head _ _ (isDigit_not_isSpace c hd)]
    simp only [isDigit_ne_minus c hd, isDigit_ne_plus c hd, if_false]
    rw [hs]
    congr 2
    ring

theorem scanS_word (w rest : List Char) (hw : Word w) (hr : ∀ x ∈ rest.head?, isSpace x = true) :
    scanS (' ' :: (w ++ rest)) = (some w, rest) := by
  unfold scanS
  rw [skipSpace_blank]
  obtain ⟨hne, hns⟩ := hw
  cases w with
  | nil => exact absurd rfl hne
  | cons c tl =>
    rw [List.cons_append, skipSpace_of_head _ _ (hns c (by simp)), ← List.cons_append]
    have h1 : ∀ x ∈ c :: tl, (fun c => !isSpace c) x = true := by
      intro x hx; simp [hns x hx]
    have h2 : ∀ x ∈ rest.head?, (fun c => !isSpace c) x = false := by
      intro x hx; simp [hr x hx]
    simp only [takeWhile_append_stop _ _ _ h1 h2, dropWhile_append_stop _ _ _ h1 h2]
    simp

/-! ## Lemmas: reading back a saved record -/

theorem nl_head_isSpace (rest : List Char) : ∀ x ∈ ('\n' :: rest).head?, isSpace x = true := by
  intro x hx; simp at hx; subst hx; decide

theorem nl_head_not_digit (rest : List Char) : ∀ x ∈ ('\n' :: rest).head?, isDigit x = false := by
  intro x hx; simp at hx; subst hx; decide

theorem readAccountNo_line (a : Account) (n : Int) (rest : List Char) :
    readAccountNo a ("Account No: ".toList ++ fmtInt n ++ '\n' :: rest) =
      ({ a with accountNumber := n }, skipSpace rest) := by
  have h : scanLabels 2 ("Account No: ".toList ++ fmtInt n ++ '\n' :: rest) =
      (true, ' ' :: (fmtInt n ++ '\n' :: rest)) := rfl
  unfold readAccountNo
  rw [h]
  simp only [scanD_fmtInt n _ (nl_head_not_digit rest)]
  rfl

theorem readName_line (a : Account) (v rest : List Char) (hv : Word v) :
    readName a ("Account Name: ".toList ++ v ++ '\n' :: rest) =
      ({ a with accountName := v }, skipSpace rest) := by
  have h : scanLabels 2 ("Account Name: ".toList ++ v ++ '\n' :: rest) =
      (true, ' ' :: (v ++ '\n' :: rest)) := rfl
  unfold readName
  rw [h]
  simp only [scanS_word v _ hv (nl_head_isSpace rest)]
  rfl

theorem readPin_line (a : Account) (v rest : List Char) (hv : Word v) :
    readPin a ("PIN: ".toList ++ v ++ '\n' :: rest) =
      ({ a with pin := v }, skipSpace rest) := by
  have h : scanLabels 1 ("PIN: ".toList ++ v ++ '\n' :: rest) =
      (true, ' ' :: (v ++ '\n' :: rest)) := rfl
  unfold readPin
  rw [h]
  simp only [scanS_word v _ hv (nl_head_isSpace rest)]
  rfl

theorem readBalance_line (a : Account) (q : ℚ) (rest : List Char) :
    readBalance a ("Balance: ".toList ++ fmt2 q ++ '\n' :: rest) =
      ({ a with balance := round2 q }, skipSpace rest) := by
  have h : scanLabels 1 ("Balance: ".toList ++ fmt2 q ++ '\n' :: rest) =
      (true, ' ' :: (fmt2 q ++ '\n' :: rest)) := rfl
  unfold readBalance
  rw [h]
  simp only [scanF_fmt2 q _ (nl_head_not_digit rest)]
  rfl

theorem readStatus_line (a : Account) (n : Int) (rest : List Char) :
    readStatus a ("Status: ".toList ++ fmtInt n ++ '\n' :: rest) =
      ({ a with status := n }, skipSpace rest) := by
  have h : scanLabels 1 ("Status: ".toList ++ fmtInt n ++ '\n' :: rest) =
      (true, ' ' :: (fmtInt n ++ '\n' :: rest)) := rfl
  unfold readStatus
  rw [h]
  simp only [scanD_fmtInt n _ (nl_head_not_digit rest)]
  rfl

theorem readType_line (a : Account) (v rest : List Char) (hv : Word v) :
    readType a ("Account Type: ".toList ++ v ++ '\n' :: rest) =
      ({ a with accountType := v }, skipSpace rest) := by
  have h : scanLabels 2 ("Account Type: ".toList ++ v ++ '\n' :: rest) =
      (true, ' ' :: (v ++ '\n' :: rest)) := rfl
  unfold readType
  rw [h]
  simp only [scanS_word v _ hv (nl_head_isSpace rest)]
  rfl

theorem readId_line (a : Account) (v rest : List Char) (hv : Word v) :
    readId a ("ID Number: ".toList ++ v ++ '\n' :: rest) =
      ({ a with idNumber := v }, skipSpace rest) := by
  have h : scanLabels 2 ("ID Number: ".toList ++ v ++ '\n' :: rest) =
      (true, ' ' :: (v ++ '\n' :: rest)) := rfl
  unfold readId
  rw [h]
  simp only [scanS_word v _ hv (nl_head_isSpace rest)]
  rfl

theorem skipSpace_label (c : Char) (l rest : List Char) (h : isSpace c = false) :
    skipSpace ((c :: l) ++ rest) = (c :: l) ++ rest := by
  rw [List.cons_append, skipSpace_of_head _ _ h]

/-- What `getAccount` reads back from the text `saveAccount` writes: every field
as written, the balance as printed by `%.2f`. -/
theorem parseAccount_saveAccountText (acc : Account) (h : acc.Wordy) :
    parseAccount (saveAccountText acc) = { acc with balance := round2 acc.balance } := by
  obtain ⟨hn, hp, ht, hi⟩ := h
  have e2 : ∀ x y : List Char,
      skipSpace ("Account Name: ".toList ++ x ++ y) = "Account Name: ".toList ++ x ++ y :=
    fun _ _ => rfl
  have e3 : ∀ x y : List Char, skipSpace ("PIN: ".toList ++ x ++ y) = "PIN: ".toList ++ x ++ y :=
    fun _ _ => rfl
  have e4 : ∀ x y : List Char,
      skipSpace ("Balance: ".toList ++ x ++ y) = "Balance: ".toList ++ x ++ y := fun _ _ => rfl
  have e5 : ∀ x y : List Char,
      skipSpace ("Status: ".toList ++ x ++ y) = "Status: ".toList ++ x ++ y := fun _ _ => rfl
  have e6 : ∀ x y : List Char,
      skipSpace ("Account Type: ".toList ++ x ++ y) = "Account Type: ".toList ++ x ++ y :=
    fun _ _ => rfl
  have e7 : ∀ x y : List Char,
      skipSpace ("ID Number: ".toList ++ x ++ y) = "ID Number: ".toList ++ x ++ y :=
    fun _ _ => rfl
  unfold parseAccount saveAccountText
  simp only [readAccountNo_line, e2, readName_line _ _ _ hn, e3, readPin_line _ _ _ hp, e4,
    readBalance_line, e5, readStatus_line, e6, readType_line _ _ _ ht, e7,
    readId_line _ _ _ hi]

/-! ## Lemmas: rounding to hundredths -/

theorem roundHalfEven_intCast (k : Int) : roundHalfEven (k : ℚ) = k := by
  unfold roundHalfEven
  simp

theorem cents_of_hundredths (k : Int) : cents ((k : ℚ) / 100) = k.natAbs := by
  unfold cents
  have h : |(k : ℚ) / 100| * 100 = ((|k| : Int) : ℚ) := by
    rw [abs_div, abs_of_pos (by norm_num : (0 : ℚ) < 100)]
    push_cast
    field_simp
  rw [h, roundHalfEven_intCast]
  rcases abs_cases k with ⟨h1, _⟩ | ⟨h1, _⟩ <;> rw [h1] <;> omega

/-- Printing with `%.2f` is exact on amounts that are whole hundredths. -/
theorem round2_of_hundredths (k : Int) : round2 ((k : ℚ) / 100) = (k : ℚ) / 100 := by
  unfold round2
  rw [cents_of_hundredths]
  by_cases hk : k < 0
  · have h1 : (k : ℚ) / 100 < 0 := by
      have : (k : ℚ) < 0 := by exact_mod_cast hk
      linarith
    rw [if_pos h1]
    have h2 : ((k.natAbs : Nat) : ℚ) = -(k : ℚ) := by
      rw [Nat.cast_natAbs, abs_of_neg hk]
      push_cast
      rfl
    rw [h2]; ring
  · have h1 : ¬ (k : ℚ) / 100 < 0 := by
      have : (0 : ℚ) ≤ k := by exact_mod_cast (not_lt.mp hk)
      intro h; linarith
    rw [if_neg h1]
    have h2 : ((k.natAbs : Nat) : ℚ) = (k : ℚ) := by
      rw [Nat.cast_natAbs, abs_of_nonneg (not_lt.mp hk)]
    rw [h2]; ring

theorem round2_zero : round2 0 = 0 := by
  have := round2_of_hundredths 0
  simpa using this

theorem round2_nonneg (q : ℚ) (h : 0 ≤ q) : 0 ≤ round2 q := by
  unfold round2
  rw [if_neg (not_lt.mpr h)]
  positivity

/-- Every printed value is a whole number of hundredths. -/
theorem round2_is_hundredths (q : ℚ) : ∃ k : Int, round2 q = (k : ℚ) / 100 := by
  unfold round2
  by_cases h : q < 0
  · exact ⟨-(cents q : Int), by rw [if_pos h]; push_cast; ring⟩
  · exact ⟨(cents q : Int), by rw [if_neg h]; push_cast; ring⟩

theorem round2_round2 (q : ℚ) : round2 (round2 q) = round2 q := by
  obtain ⟨k, hk⟩ := round2_is_hundredths q
  rw [hk, round2_of_hundredths]

/-! ## Lemmas: the record store -/

theorem getAccount_of_file (s : Bank) (n : Int) (acc : Account) (hw : acc.Wordy)
    (hf : s.files n = some (saveAccountText acc)) :
    getAccount s n = { acc with balance := round2 acc.balance } := by
  unfold getAccount
  rw [hf]
  exact parseAccount_saveAccountText acc hw

theorem getAccount_missing (s : Bank) (n : Int) (hf : s.files n = none) :
    getAccount s n = blankAccount := by
  unfold getAccount
  rw [hf]
  rfl

/-- In a well-formed store a record that loads is the saved record of its file. -/
theorem getAccount_found (s : Bank) (hwf : s.WellFormed) (n : Int)
    (h : (getAccount s n).accountNumber ≠ 0) :
    ∃ acc : Account, acc.Wordy ∧ acc.accountNumber = n ∧
      s.files n = some (saveAccountText acc) ∧
      getAccount s n = { acc with balance := round2 acc.balance } := by
  cases hf : s.files n with
  | none =>
    rw [getAccount_missing s n hf] at h
    exact absurd rfl h
  | some txt =>
    obtain ⟨acc, hw, hn, ht⟩ := hwf n txt hf
    subst ht
    exact ⟨acc, hw, hn, rfl, getAccount_of_file s n acc hw hf⟩

theorem getAccount_number (s : Bank) (hwf : s.WellFormed) (n : Int)
    (h : (getAccount s n).accountNumber ≠ 0) : (getAccount s n).accountNumber = n := by
  obtain ⟨acc, _, hn, _, hg⟩ := getAccount_found s hwf n h
  rw [hg]
  exact hn

theorem getAccount_wordy (s : Bank) (hwf : s.WellFormed) (n : Int)
    (h : (getAccount s n).accountNumber ≠ 0) : (getAccount s n).Wordy := by
  obtain ⟨acc, hw, _, _, hg⟩ := getAccount_found s hwf n h
  rw [hg]
  exact hw

theorem getAccount_balance_nonneg (s : Bank) (hnn : s.NonNegative) (n : Int) :
    0 ≤ (getAccount s n).balance := by
  unfold getAccount
  cases hf : s.files n with
  | none => exact le_refl _
  | some txt => exact hnn n txt hf

theorem logTransaction_files (s : Bank) (e : LogEntry) (b : Bool) :
    (logTransaction s e b).files = s.files := by
  unfold logTransaction
  split <;> rfl

theorem logTransaction_index (s : Bank) (e : LogEntry) (b : Bool) :
    (logTransaction s e b).index = s.index := by
  unfold logTransaction
  split <;> rfl

theorem wellFormed_of_files (s t : Bank) (h : t.files = s.files) (hwf : s.WellFormed) :
    t.WellFormed := by
  intro n txt hf
  rw [h] at hf
  exact hwf n txt hf

theorem nonNegative_of_files (s t : Bank) (h : t.files = s.files) (hnn : s.NonNegative) :
    t.NonNegative := by
  intro n txt hf
  rw [h] at hf
  exact hnn n txt hf

theorem saveAccount_true (s : Bank) (acc : Account) :
    saveAccount s acc true =
      (⟨Function.update s.files acc.accountNumber (some (saveAccountText acc)), s.index, s.log⟩,
        true) := rfl

theorem saveAccount_false (s : Bank) (acc : Account) : saveAccount s acc false = (s, false) := rfl

theorem saveAccount_flag (s : Bank) (acc : Account) (b : Bool) : (saveAccount s acc b).2 = b := by
  cases b <;> rfl

theorem wellFormed_save (s : Bank) (hwf : s.WellFormed) (acc : Account) (hw : acc.Wordy)
    (b : Bool) : (saveAccount s acc b).1.WellFormed := by
  cases b with
  | false => exact hwf
  | true =>
    intro n txt hf
    rw [saveAccount_true] at hf
    by_cases hn : n = acc.accountNumber
    · subst hn
      simp only [Function.update_same, Option.some.injEq] at hf
      exact ⟨acc, hw, rfl, hf.symm⟩
    · simp only [Function.update_noteq hn] at hf
      exact hwf n txt hf

theorem nonNegative_save (s : Bank) (hnn : s.NonNegative) (acc : Account) (hw : acc.Wordy)
    (hb : 0 ≤ acc.balance) (b : Bool) : (saveAccount s acc b).1.NonNegative := by
  cases b with
  | false => exact hnn
  | true =>
    intro n txt hf
    rw [saveAccount_true] at hf
    by_cases hn : n = acc.accountNumber
    · subst hn
      simp only [Function.update_same, Option.some.injEq] at hf
      subst hf
      rw [parseAccount_saveAccountText acc hw]
      exact round2_nonneg _ hb
    · simp only [Function.update_noteq hn] at hf
      exact hnn n txt hf

/-- The amount loop of `deposit` accepts only an amount in `(0, 50000]` that was
entered, and every entry before it was rejected. -/
theorem depositAmount_some (amounts : List (Option ℚ)) (a : ℚ)
    (h : depositAmount amounts = some a) : 0 < a ∧ a ≤ 50000 ∧ some a ∈ amounts := by
  induction amounts with
  | nil => simp [depositAmount] at h
  | cons x rest ih =>
    cases x with
    | none =>
      simp only [depositAmount] at h
      obtain ⟨h1, h2, h3⟩ := ih h
      exact ⟨h1, h2, List.mem_cons_of_mem _ h3⟩
    | some v =>
      simp only [depositAmount] at h
      split at h
      · obtain ⟨h1, h2, h3⟩ := ih h
        exact ⟨h1, h2, List.mem_cons_of_mem _ h3⟩
      · split at h
        · obtain ⟨h1, h2, h3⟩ := ih h
          exact ⟨h1, h2, List.mem_cons_of_mem _ h3⟩
        · simp only [Option.some.injEq] at h
          subst h
          refine ⟨by linarith, by linarith, by simp⟩

theorem withdrawAmount_some (balance : ℚ) (amounts : List (Option ℚ)) (a : ℚ)
    (h : withdrawAmount balance amounts = some a) : 0 < a ∧ a ≤ balance ∧ some a ∈ amounts := by
  induction amounts with
  | nil => simp [withdrawAmount] at h
  | cons x rest ih =>
    cases x with
    | none =>
      simp only [withdrawAmount] at h
      obtain ⟨h1, h2, h3⟩ := ih h
      exact ⟨h1, h2, List.mem_cons_of_mem _ h3⟩
    | some v =>
      simp only [withdrawAmount] at h
      split at h
      · obtain ⟨h1, h2, h3⟩ := ih h
        exact ⟨h1, h2, List.mem_cons_of_mem _ h3⟩
      · split at h
        · obtain ⟨h1, h2, h3⟩ := ih h
          exact ⟨h1, h2, List.mem_cons_of_mem _ h3⟩
        · simp only [Option.some.injEq] at h
          subst h
          refine ⟨by linarith, by linarith, by simp⟩

/-! ## Lemmas: the paths through `deposit` and `withdraw` -/

/-- Either `deposit` leaves the bank as it was and does not report success, or it
went through every check, saved the credited record and reported success. -/
theorem deposit_cases (s : Bank) (inp : CashIn) :
    ((deposit s inp).1 = s ∧ (deposit s inp).2 ≠ .success) ∨
    ∃ num a, (listAllAccountsAndSelect s inp.indexOpens inp.sels).1 = .chosen num ∧
      (getAccount s num).accountNumber ≠ 0 ∧ (getAccount s num).status ≠ 1 ∧
      authenticate (getAccount s num).pin inp.pins = .ok ∧
      depositAmount inp.amounts = some a ∧ inp.saveOpens = true ∧
      deposit s inp =
        (logTransaction
          (saveAccount s { getAccount s num with balance := (getAccount s num).balance + a }
            true).1 (.deposit num a) inp.logOpens, .success) := by
  unfold deposit
  cases hsel : (listAllAccountsAndSelect s inp.indexOpens inp.sels).1 with
  | ret0 => left; simp
  | pending => left; simp
  | chosen num =>
    simp only []
    by_cases h0 : (getAccount s num).accountNumber = 0
    · left; simp [h0]
    by_cases h1 : (getAccount s num).status = 1
    · left; simp [h0, h1]
    simp only [h0, h1, if_false]
    cases hauth : authenticate (getAccount s num).pin inp.pins with
    | pending => left; simp
    | failed => left; simp
    | ok =>
      simp only []
      cases hamt : depositAmount inp.amounts with
      | none => left; simp
      | some a =>
        simp only []
        cases hsave : inp.saveOpens with
        | false => left; simp [saveAccount_false]
        | true =>
          right
          refine ⟨num, a, ?_, h0, h1, ?_, ?_, ?_, ?_⟩ <;> first | rfl | assumption

theorem withdraw_cases (s : Bank) (inp : CashIn) :
    ((withdraw s inp).1 = s ∧ (withdraw s inp).2 ≠ .success) ∨
    ∃ num a, (listAllAccountsAndSelect s inp.indexOpens inp.sels).1 = .chosen num ∧
      (getAccount s num).accountNumber ≠ 0 ∧ (getAccount s num).status ≠ 1 ∧
      authenticate (getAccount s num).pin inp.pins = .ok ∧
      withdrawAmount (getAccount s num).balance inp.amounts = some a ∧ inp.saveOpens = true ∧
      withdraw s inp =
        (logTransaction
          (saveAccount s { getAccount s num with balance := (getAccount s num).balance - a }
            true).1 (.withdrawal num a) inp.logOpens, .success) := by
  unfold withdraw
  cases hsel : (listAllAccountsAndSelect s inp.indexOpens inp.sels).1 with
  | ret0 => left; simp
  | pending => left; simp
  | chosen num =>
    simp only []
    by_cases h0 : (getAccount s num).accountNumber = 0
    · left; simp [h0]
    by_cases h1 : (getAccount s num).status = 1
    · left; simp [h0, h1]
    simp only [h0, h1, if_false]
    cases hauth : authenticate (getAccount s num).pin inp.pins with
    | pending => left; simp
    | failed => left; simp
    | ok =>
      simp only []
      cases hamt : withdrawAmount (getAccount s num).balance inp.amounts with
      | none => left; simp
      | some a =>
        simp only []
        cases hsave : inp.saveOpens with
        | false => left; simp [saveAccount_false]
        | true =>
          right
          refine ⟨num, a, ?_, h0, h1, ?_, ?_, ?_, ?_⟩ <;> first | rfl | assumption

/-! ## Lemmas: the paths through `remittance` -/

theorem remitFee_remitFee (t1 t2 : List Char) (a b f : ℚ) :
    remitFee t1 t2 a (remitFee t1 t2 b f) = remitFee t1 t2 a f := by
  unfold remitFee
  split
  · rfl
  · split <;> rfl

/-- The amount loop of `remittance` accepts only a positive amount that was
entered and that the sender can pay with its fee; the fee is the one computed
for that amount, whatever was computed for amounts rejected before. -/
theorem remitLoop_accepted (acc1 acc2 : Account) (f : ℚ) (amounts : List (Option ℚ))
    (retries : List Char) (a fee : ℚ)
    (h : remitLoop acc1 acc2 f amounts retries = .accepted a fee) :
    0 < a ∧ a + fee ≤ acc1.balance ∧
      fee = remitFee acc1.accountType acc2.accountType a f ∧ some a ∈ amounts := by
  induction amounts generalizing f retries with
  | nil => simp [remitLoop] at h
  | cons x rest ih =>
    cases x with
    | none =>
      simp only [remitLoop] at h
      obtain ⟨h1, h2, h3, h4⟩ := ih f retries h
      exact ⟨h1, h2, h3, List.mem_cons_of_mem _ h4⟩
    | some v =>
      simp only [remitLoop] at h
      split at h
      · obtain ⟨h1, h2, h3, h4⟩ := ih f retries h
        exact ⟨h1, h2, h3, List.mem_cons_of_mem _ h4⟩
      · rename_i hpos
        split at h
        · cases retries with
          | nil => simp at h
          | cons r rs =>
            simp only [] at h
            split at h
            · obtain ⟨h1, h2, h3, h4⟩ := ih _ rs h
              rw [remitFee_remitFee] at h3
              exact ⟨h1, h2, h3, List.mem_cons_of_mem _ h4⟩
            · simp at h
        · rename_i hfunds
          simp only [RemitAmount.accepted.injEq] at h
          obtain ⟨rfl, rfl⟩ := h
          exact ⟨by linarith, by linarith, rfl, by simp⟩

/-- The paths through `remittance`: nothing changed and no success reported; or
the sender's record was saved and the receiver's could not be; or both were
saved, success was reported and the log line written. -/
theorem remittance_cases (s : Bank) (inp : RemitIn) :
    ((remittance s inp).1 = s ∧ (remittance s inp).2 ≠ .success) ∨
    ∃ sender sels1 receiver a fee,
      listAllAccountsAndSelect s inp.senderIndexOpens inp.sels = (.chosen sender, sels1) ∧
      (listAllAccountsAndSelect s inp.receiverIndexOpens sels1).1 = .chosen receiver ∧
      sender ≠ receiver ∧
      (getAccount s sender).accountNumber ≠ 0 ∧ (getAccount s receiver).accountNumber ≠ 0 ∧
      (getAccount s sender).status ≠ 1 ∧ (getAccount s receiver).status ≠ 1 ∧
      authenticate (getAccount s sender).pin inp.pins = .ok ∧
      remitLoop (getAccount s sender) (getAccount s receiver) 0 inp.amounts inp.retries =
        .accepted a fee ∧
      inp.saveSenderOpens = true ∧
      ((inp.saveReceiverOpens = false ∧
        remittance s inp =
          ((saveAccount s { getAccount s sender with
              balance := (getAccount s sender).balance - (a + fee) } true).1, .saveFailed)) ∨
       (inp.saveReceiverOpens = true ∧
        remittance s inp =
          (logTransaction
            (saveAccount
              (saveAccount s { getAccount s sender with
                balance := (getAccount s sender).balance - (a + fee) } true).1
              { getAccount s receiver with balance := (getAccount s receiver).balance + a }
              true).1
            (.remittance sender receiver a fee) inp.logOpens, .success))) := by
  unfold remittance
  rcases hsel : listAllAccountsAndSelect s inp.senderIndexOpens inp.sels with ⟨sel1, sels1⟩
  cases sel1 with
  | ret0 => left; simp
  | pending => left; simp
  | chosen sender =>
    simp only []
    cases hsel2 : (listAllAccountsAndSelect s inp.receiverIndexOpens sels1).1 with
    | ret0 => left; simp
    | pending => left; simp
    | chosen receiver =>
      simp only []
      by_cases hsr : sender = receiver
      · left; simp [hsr]
      by_cases h0 : (getAccount s sender).accountNumber = 0
      · left; simp [hsr, h0]
      by_cases h0r : (getAccount s receiver).accountNumber = 0
      · left; simp [hsr, h0, h0r]
      by_cases h1 : (getAccount s sender).status = 1
      · left; simp [hsr, h0, h0r, h1]
      by_cases h1r : (getAccount s receiver).status = 1
      · left; simp [hsr, h0, h0r, h1, h1r]
      simp only [hsr, h0, h0r, h1, h1r, if_false]
      cases hauth : authenticate (getAccount s sender).pin inp.pins with
      | pending => left; simp
      | failed => left; simp
      | ok =>
        simp only []
        cases hamt : remitLoop (getAccount s sender) (getAccount s receiver) 0 inp.amounts
            inp.retries with
        | pending => left; simp
        | aborted => left; simp
        | accepted a fee =>
          simp only []
          cases hs1 : inp.saveSenderOpens with
          | false => left; simp [saveAccount_false]
          | true =>
            right
            cases hs2 : inp.saveReceiverOpens with
            | false =>
              refine ⟨sender, sels1, receiver, a, fee, ?_, ?_, hsr, h0, h0r, h1, h1r, ?_, ?_, ?_,
                Or.inl ⟨?_, ?_⟩⟩ <;> first | rfl | assumption
            | true =>
              refine ⟨sender, sels1, receiver, a, fee, ?_, ?_, hsr, h0, h0r, h1, h1r, ?_, ?_, ?_,
                Or.inr ⟨?_, ?_⟩⟩ <;> first | rfl | assumption

/-! ## Lemmas: the invariants are preserved -/

theorem wordy_setBalance (acc : Account) (b : ℚ) (h : acc.Wordy) :
    ({ acc with balance := b } : Account).Wordy := h

theorem deposit_preserves (s : Bank) (hwf : s.WellFormed) (hnn : s.NonNegative) (inp : CashIn) :
    (deposit s inp).1.WellFormed ∧ (deposit s inp).1.NonNegative := by
  rcases deposit_cases s inp with ⟨h, _⟩ | ⟨num, a, _, h0, _, _, hamt, _, heq⟩
  · rw [h]; exact ⟨hwf, hnn⟩
  · rw [heq]
    have hw := wordy_setBalance _ ((getAccount s num).balance + a) (getAccount_wordy s hwf num h0)
    have hb := getAccount_balance_nonneg s hnn num
    have ha := (depositAmount_some _ _ hamt).1
    exact ⟨wellFormed_of_files _ _ (logTransaction_files _ _ _) (wellFormed_save s hwf _ hw true),
      nonNegative_of_files _ _ (logTransaction_files _ _ _)
        (nonNegative_save s hnn _ hw (by show (0 : ℚ) ≤ _ + _; linarith) true)⟩

theorem withdraw_preserves (s : Bank) (hwf : s.WellFormed) (hnn : s.NonNegative) (inp : CashIn) :
    (withdraw s inp).1.WellFormed ∧ (withdraw s inp).1.NonNegative := by
  rcases withdraw_cases s inp with ⟨h, _⟩ | ⟨num, a, _, h0, _, _, hamt, _, heq⟩
  · rw [h]; exact ⟨hwf, hnn⟩
  · rw [heq]
    have hw := wordy_setBalance _ ((getAccount s num).balance - a) (getAccount_wordy s hwf num h0)
    have ha := (withdrawAmount_some _ _ _ hamt).2.1
    exact ⟨wellFormed_of_files _ _ (logTransaction_files _ _ _) (wellFormed_save s hwf _ hw true),
      nonNegative_of_files _ _ (logTransaction_files _ _ _)
        (nonNegative_save s hnn _ hw (by show (0 : ℚ) ≤ _ - _; linarith) true)⟩

theorem remittance_preserves (s : Bank) (hwf : s.WellFormed) (hnn : s.NonNegative)
    (inp : RemitIn) : (remittance s inp).1.WellFormed ∧ (remittance s inp).1.NonNegative := by
  rcases remittance_cases s inp with ⟨h, _⟩ |
    ⟨sender, sels1, receiver, a, fee, _, _, _, h0, h0r, _, _, _, hamt, _, hcase⟩
  · rw [h]; exact ⟨hwf, hnn⟩
  · have hw := wordy_setBalance _ ((getAccount s sender).balance - (a + fee))
      (getAccount_wordy s hwf sender h0)
    have hwr := wordy_setBalance _ ((getAccount s receiver).balance + a)
      (getAccount_wordy s hwf receiver h0r)
    have hbr := getAccount_balance_nonneg s hnn receiver
    obtain ⟨ha, hfunds, _, _⟩ := remitLoop_accepted _ _ _ _ _ _ _ hamt
    have hwf1 := wellFormed_save s hwf _ hw true
    have hnn1 := nonNegative_save s hnn _ hw (by show (0 : ℚ) ≤ _ - _; linarith) true
    rcases hcase with ⟨_, heq⟩ | ⟨_, heq⟩
    · rw [heq]; exact ⟨hwf1, hnn1⟩
    · rw [heq]
      exact ⟨wellFormed_of_files _ _ (logTransaction_files _ _ _)
          (wellFormed_save _ hwf1 _ hwr true),
        nonNegative_of_files _ _ (logTransaction_files _ _ _)
          (nonNegative_save _ hnn1 _ hwr (by show (0 : ℚ) ≤ _ + _; linarith) true)⟩

/-! ## Lemmas: the sample bank -/

theorem aliceAccount_wordy : aliceAccount.Wordy := by
  unfold Account.Wordy Word NoSpace
  decide

theorem bobAccount_wordy : bobAccount.Wordy := by
  unfold Account.Wordy Word NoSpace
  decide

theorem sampleBank_files (n : Int) (txt : List Char) (h : sampleBank.files n = some txt) :
    (n = 1000001 ∧ txt = saveAccountText aliceAccount) ∨
    (n = 1000002 ∧ txt = saveAccountText bobAccount) := by
  unfold sampleBank at h
  simp only [] at h
  split at h
  · left; exact ⟨by assumption, by simpa using h.symm⟩
  · split at h
    · right; exact ⟨by assumption, by simpa using h.symm⟩
    · simp at h

theorem sampleBank_wellFormed : sampleBank.WellFormed := by
  intro n txt h
  rcases sampleBank_files n txt h with ⟨hn, ht⟩ | ⟨hn, ht⟩
  · exact ⟨aliceAccount, aliceAccount_wordy, hn.symm, ht⟩
  · exact ⟨bobAccount, bobAccount_wordy, hn.symm, ht⟩

theorem sampleBank_nonNegative : sampleBank.NonNegative := by
  intro n txt h
  rcases sampleBank_files n txt h with ⟨_, ht⟩ | ⟨_, ht⟩
  · rw [ht, parseAccount_saveAccountText _ aliceAccount_wordy]
    exact round2_nonneg _ (by unfold aliceAccount; norm_num)
  · rw [ht, parseAccount_saveAccountText _ bobAccount_wordy]
    exact round2_nonneg _ (by unfold bobAccount; norm_num)

theorem getAccount_alice : getAccount sampleBank 1000001 = aliceAccount := by
  rw [getAccount_of_file sampleBank 1000001 aliceAccount aliceAccount_wordy rfl]
  have : round2 aliceAccount.balance = aliceAccount.balance := by
    have := round2_of_hundredths 200000
    norm_num at this
    exact this
  rw [this]

theorem getAccount_bob : getAccount sampleBank 1000002 = bobAccount := by
  rw [getAccount_of_file sampleBank 1000002 bobAccount bobAccount_wordy rfl]
  have : round2 bobAccount.balance = bobAccount.balance := by
    have := round2_of_hundredths 5000
    norm_num at this
    exact this
  rw [this]

/-! ## Lemmas: a successful remittance -/

theorem sampleBank_listing : listAccounts sampleBank sampleBank.index [] = [1000001, 1000002] := by
  have h : sampleBank.index = [1000001, 1000002] := rfl
  rw [h]
  simp [listAccounts, getAccount_alice, getAccount_bob, aliceAccount, bobAccount]

theorem sampleRemit_run :
    remittance sampleBank sampleRemit =
      (logTransaction
        (saveAccount
          (saveAccount sampleBank { aliceAccount with balance := 2000 - (1000 + 20) } true).1
          { bobAccount with balance := 50 + 1000 } true).1
        (.remittance 1000001 1000002 1000 20) true, .success) := by
  simp [remittance, sampleRemit, listAllAccountsAndSelect, sampleBank_listing, selectLoop,
    getAccount_alice, getAccount_bob, authenticate, authLoop, remitLoop, remitFee]
  norm_num [aliceAccount, bobAccount]
  rfl

theorem remitFee_zero (t1 t2 : List Char) (a : ℚ) : remitFee t1 t2 a 0 = feeSchedule t1 t2 a := by
  unfold remitFee feeSchedule
  split
  · norm_num; ring
  · split
    · norm_num; ring
    · rfl

theorem getAccount_balance_hundredths (s : Bank) (hwf : s.WellFormed) (n : Int) :
    ∃ k : Int, (getAccount s n).balance = (k : ℚ) / 100 := by
  by_cases h : (getAccount s n).accountNumber = 0
  · cases hf : s.files n with
    | none =>
      rw [getAccount_missing s n hf]
      exact ⟨0, by simp [blankAccount]⟩
    | some txt =>
      obtain ⟨acc, hw, _, ht⟩ := hwf n txt hf
      subst ht
      rw [getAccount_of_file s n acc hw hf]
      exact round2_is_hundredths _
  · obtain ⟨acc, _, _, _, hg⟩ := getAccount_found s hwf n h
    rw [hg]
    exact round2_is_hundredths _

theorem round2_sub_exact (b x : ℚ) (hb : ∃ k : Int, b = (k : ℚ) / 100)
    (hx : ∃ k : Int, x = (k : ℚ) / 100) : round2 (b - x) = b - x := by
  obtain ⟨k, rfl⟩ := hb
  obtain ⟨j, rfl⟩ := hx
  have : (k : ℚ) / 100 - (j : ℚ) / 100 = ((k - j : Int) : ℚ) / 100 := by push_cast; ring
  rw [this, round2_of_hundredths]

theorem round2_add_exact (b x : ℚ) (hb : ∃ k : Int, b = (k : ℚ) / 100)
    (hx : ∃ k : Int, x = (k : ℚ) / 100) : round2 (b + x) = b + x := by
  obtain ⟨k, rfl⟩ := hb
  obtain ⟨j, rfl⟩ := hx
  have : (k : ℚ) / 100 + (j : ℚ) / 100 = ((k + j : Int) : ℚ) / 100 := by push_cast; ring
  rw [this, round2_of_hundredths]

/-- What a successful `remittance` leaves behind. -/
theorem remittance_success (s : Bank) (hwf : s.WellFormed) (inp : RemitIn)
    (hsucc : (remittance s inp).2 = .success) :
    ∃ (sender receiver : Int) (sels1 : List (Option Int)) (a fee : ℚ),
      listAllAccountsAndSelect s inp.senderIndexOpens inp.sels = (.chosen sender, sels1) ∧
      (listAllAccountsAndSelect s inp.receiverIndexOpens sels1).1 = .chosen receiver ∧
      sender ≠ receiver ∧
      (getAccount s sender).accountNumber = sender ∧
      (getAccount s receiver).accountNumber = receiver ∧
      (getAccount s sender).Wordy ∧ (getAccount s receiver).Wordy ∧
      remitLoop (getAccount s sender) (getAccount s receiver) 0 inp.amounts inp.retries =
        .accepted a fee ∧
      (remittance s inp).1.files =
        Function.update (Function.update s.files sender
          (some (saveAccountText { getAccount s sender with
            balance := (getAccount s sender).balance - (a + fee) })))
          receiver
          (some (saveAccountText { getAccount s receiver with
            balance := (getAccount s receiver).balance + a })) ∧
      (remittance s inp).1.index = s.index ∧
      (remittance s inp).1.log =
        (if inp.logOpens then s.log ++ [.remittance sender receiver a fee] else s.log) := by
  rcases remittance_cases s inp with ⟨_, h⟩ |
    ⟨sender, sels1, receiver, a, fee, h1, h2, h3, h0, h0r, _, _, _, hamt, _, hcase⟩
  · exact absurd hsucc h
  · rcases hcase with ⟨_, heq⟩ | ⟨_, heq⟩
    · rw [heq] at hsucc
      simp at hsucc
    · have e1 := getAccount_number s hwf sender h0
      have e2 := getAccount_number s hwf receiver h0r
      refine ⟨sender, receiver, sels1, a, fee, h1, h2, h3, e1, e2,
        getAccount_wordy s hwf sender h0, getAccount_wordy s hwf receiver h0r, hamt, ?_, ?_, ?_⟩
      · rw [heq]
        simp only [logTransaction_files, saveAccount_true, e1, e2]
      · rw [heq]
        simp only [logTransaction_index, saveAccount_true]
      · rw [heq]
        unfold logTransaction
        split <;> simp [saveAccount_true]

/-! ## Lemmas: the amount loops -/

theorem depositAmount_skip (pre rest : List (Option ℚ)) (h : ∀ x ∈ pre, DepositRejects x) :
    depositAmount (pre ++ rest) = depositAmount rest := by
  induction pre with
  | nil => rfl
  | cons x pre ih =>
    have hx := h x (by simp)
    have ih' := ih (fun y hy => h y (by simp [hy]))
    cases x with
    | none => simpa [depositAmount] using ih'
    | some a =>
      rcases hx with hx | hx
      · simp [depositAmount, hx, ih']
      · simp only [List.cons_append, depositAmount, gt_iff_lt, hx, if_true, ite_self]
        exact ih'

theorem withdrawAmount_skip (balance : ℚ) (pre rest : List (Option ℚ))
    (h : ∀ x ∈ pre, WithdrawRejects balance x) :
    withdrawAmount balance (pre ++ rest) = withdrawAmount balance rest := by
  induction pre with
  | nil => rfl
  | cons x pre ih =>
    have hx := h x (by simp)
    have ih' := ih (fun y hy => h y (by simp [hy]))
    cases x with
    | none => simpa [withdrawAmount] using ih'
    | some a =>
      rcases hx with hx | hx
      · simp [withdrawAmount, hx, ih']
      · simp only [List.cons_append, withdrawAmount, gt_iff_lt, hx, if_true, ite_self]
        exact ih'

theorem depositAmount_accept (a : ℚ) (rest : List (Option ℚ)) (h1 : 0 < a) (h2 : a ≤ 50000) :
    depositAmount (some a :: rest) = some a := by
  simp [depositAmount, not_le.mpr h1, not_lt.mpr h2]

theorem withdrawAmount_accept (balance a : ℚ) (rest : List (Option ℚ)) (h1 : 0 < a)
    (h2 : a ≤ balance) : withdrawAmount balance (some a :: rest) = some a := by
  simp [withdrawAmount, not_le.mpr h1, not_lt.mpr h2]

/-! ## Lemmas: the paths through `createAccount` -/

theorem readIdNumber_some (ids : List (List Char)) (t : List Char)
    (h : readIdNumber ids = some t) : t ∈ ids ∧ 4 ≤ t.length := by
  induction ids with
  | nil => simp [readIdNumber] at h
  | cons x rest ih =>
    simp only [readIdNumber] at h
    split at h
    · simp only [Option.some.injEq] at h
      subst h
      exact ⟨by simp, by assumption⟩
    · exact ⟨List.mem_cons_of_mem _ (ih h).1, (ih h).2⟩

theorem readAccountType_some (types : List (List Char)) (t : List Char)
    (h : readAccountType types = some t) : t = "Savings".toList ∨ t = "Current".toList := by
  induction types with
  | nil => simp [readAccountType] at h
  | cons x rest ih =>
    simp only [readAccountType] at h
    split at h
    · simp only [Option.some.injEq] at h
      subst h
      assumption
    · exact ih h

theorem readNewPin_some (pins : List (List Char)) (t : List Char)
    (h : readNewPin pins = some t) : t.length = 4 ∧ t.all isDigit = true := by
  induction pins with
  | nil => simp [readNewPin] at h
  | cons x rest ih =>
    simp only [readNewPin] at h
    split at h
    · simp only [Option.some.injEq] at h
      subst h
      assumption
    · exact ih h

theorem word_of_type (t : List Char) (h : t = "Savings".toList ∨ t = "Current".toList) :
    Word t := by
  rcases h with rfl | rfl <;> (unfold Word NoSpace; decide)

theorem word_of_pin (t : List Char) (h : t.length = 4 ∧ t.all isDigit = true) : Word t := by
  constructor
  · intro hnil
    rw [hnil] at h
    simp at h
  · intro c hc
    exact isDigit_not_isSpace c (List.all_eq_true.mp h.2 c hc)

theorem word_of_id (t : List Char) (h : 4 ≤ t.length) (hs : NoSpace t) : Word t := by
  constructor
  · intro hnil
    rw [hnil] at h
    simp at h
  · exact hs

/-- The paths through `createAccount`: nothing changed and no success reported,
or every prompt was answered, the record saved, and success reported. -/
theorem createAccount_cases (s : Bank) (inp : CreateIn) :
    ((createAccount s inp).1 = s ∧ (createAccount s inp).2 ≠ .success) ∨
    ∃ idNumber accountType pin,
      readIdNumber inp.ids = some idNumber ∧ readAccountType inp.types = some accountType ∧
      readNewPin inp.pins = some pin ∧ inp.saveOpens = true ∧
      (createAccount s inp).2 = .success ∧
      (createAccount s inp).1.files =
        Function.update s.files (assignNumber s.index inp.indexReadOpens inp.r1 inp.r2)
          (some (saveAccountText
            ⟨assignNumber s.index inp.indexReadOpens inp.r1 inp.r2, inp.name, pin, 0, 0,
              accountType, idNumber⟩)) ∧
      (createAccount s inp).1.index =
        (if inp.indexAppendOpens then
          s.index ++ [assignNumber s.index inp.indexReadOpens inp.r1 inp.r2]
        else s.index) ∧
      (createAccount s inp).1.log =
        (if inp.logOpens then
          s.log ++ [.create (assignNumber s.index inp.indexReadOpens inp.r1 inp.r2)]
        else s.log) := by
  unfold createAccount
  cases hid : readIdNumber inp.ids with
  | none => left; simp
  | some idNumber =>
    cases hty : readAccountType inp.types with
    | none => left; simp
    | some accountType =>
      cases hpin : readNewPin inp.pins with
      | none => left; simp
      | some pin =>
        cases hsave : inp.saveOpens with
        | false => left; simp [saveAccount_false]
        | true =>
          right
          refine ⟨idNumber, accountType, pin, rfl, rfl, rfl, rfl, ?_, ?_, ?_, ?_⟩
          · simp [saveAccount_true]
          · simp only [saveAccount_true, logTransaction_files]
            split <;> rfl
          · simp only [saveAccount_true, logTransaction_index]
            split <;> rfl
          · simp only [saveAccount_true, logTransaction]
            cases inp.indexAppendOpens <;> cases inp.logOpens <;> simp

theorem sampleCreate_success : (createAccount sampleBank sampleCreate).2 = .success := by
  decide

/-! ## Lemmas: the paths through `deleteAccount` -/

theorem rebuildIndex_eq (num : Int) (index temp : List Int) :
    rebuildIndex num index temp = temp ++ index.filter (fun n => n ≠ num) := by
  induction index generalizing temp with
  | nil => simp [rebuildIndex]
  | cons x rest ih =>
    unfold rebuildIndex
    by_cases hx : x = num
    · simp [hx, ih]
    · simp [hx, ih]

/-- The paths through `deleteAccount`: nothing changed; or the record was removed
and the index could not be opened; or the record was removed, the index rebuilt
and the log line written. -/
theorem deleteAccount_cases (s : Bank) (inp : DeleteIn) :
    ((deleteAccount s inp).1 = s ∧ (deleteAccount s inp).2 ≠ .success ∧
      (deleteAccount s inp).2 ≠ .indexError) ∨
    ∃ num, (listAllAccountsAndSelect s inp.indexOpens inp.sels).1 = .chosen num ∧
      (getAccount s num).accountNumber ≠ 0 ∧
      4 ≤ (getAccount s num).idNumber.length ∧
      (getAccount s num).idNumber.drop ((getAccount s num).idNumber.length - 4) = inp.id ∧
      authenticate (getAccount s num).pin inp.pins = .ok ∧ inp.confirm = 1 ∧
      ((¬(inp.indexReadOpens = true ∧ inp.tempOpens = true) ∧
        deleteAccount s inp =
          (⟨Function.update s.files (getAccount s num).accountNumber none, s.index, s.log⟩,
            .indexError)) ∨
       (inp.indexReadOpens = true ∧ inp.tempOpens = true ∧
        deleteAccount s inp =
          (logTransaction
            ⟨Function.update s.files (getAccount s num).accountNumber none,
              s.index.filter (fun n => n ≠ num), s.log⟩
            (.delete num) inp.logOpens, .success))) := by
  unfold deleteAccount
  cases hsel : (listAllAccountsAndSelect s inp.indexOpens inp.sels).1 with
  | ret0 => left; simp
  | pending => left; simp
  | chosen num =>
    simp only []
    by_cases h0 : (getAccount s num).accountNumber = 0
    · left; simp [h0]
    by_cases hid : (getAccount s num).idNumber.length < 4 ∨
        (getAccount s num).idNumber.drop ((getAccount s num).idNumber.length - 4) ≠ inp.id
    · left; simp [h0, hid]
    simp only [h0, hid, if_false]
    cases hauth : authenticate (getAccount s num).pin inp.pins with
    | pending => left; simp
    | failed => left; simp
    | ok =>
      simp only []
      by_cases hc : inp.confirm = 1
      · right
        simp only [hc, if_true]
        have hid1 : 4 ≤ (getAccount s num).idNumber.length := by
          by_contra hlt
          exact hid (Or.inl (by omega))
        have hid2 : (getAccount s num).idNumber.drop ((getAccount s num).idNumber.length - 4) =
            inp.id := by
          by_contra hne
          exact hid (Or.inr hne)
        by_cases hopen : inp.indexReadOpens = true ∧ inp.tempOpens = true
        · refine ⟨num, rfl, h0, hid1, hid2, ?_, ?_, Or.inr ⟨hopen.1, hopen.2, ?_⟩⟩
          · first | rfl | assumption
          · trivial
          · simp only [hopen, and_self, if_true, rebuildIndex_eq, List.nil_append]
        · refine ⟨num, rfl, h0, hid1, hid2, ?_, ?_, Or.inl ⟨hopen, ?_⟩⟩
          · first | rfl | assumption
          · trivial
          · simp only [hopen, if_false]
      · left; simp [hc]

theorem sampleDelete_run :
    deleteAccount sampleBank sampleDelete =
      (logTransaction ⟨Function.update sampleBank.files 1000001 none, [1000002], sampleBank.log⟩
        (.delete 1000001) true, .success) := by
  simp [deleteAccount, sampleDelete, listAllAccountsAndSelect, sampleBank_listing, selectLoop,
    getAccount_alice, authenticate, authLoop, rebuildIndex_eq]
  simp [aliceAccount, sampleBank]

theorem sampleDeleteIndexFails_run :
    deleteAccount sampleBank sampleDeleteIndexFails =
      (⟨Function.update sampleBank.files 1000001 none, sampleBank.index, sampleBank.log⟩,
        .indexError) := by
  simp [deleteAccount, sampleDeleteIndexFails, listAllAccountsAndSelect, sampleBank_listing,
    selectLoop, getAccount_alice, authenticate, authLoop]
  simp [aliceAccount]

theorem sampleDeleteTempFails_run :
    deleteAccount sampleBank sampleDeleteTempFails =
      (⟨Function.update sampleBank.files 1000001 none, sampleBank.index, sampleBank.log⟩,
        .indexError) := by
  simp [deleteAccount, sampleDeleteTempFails, listAllAccountsAndSelect, sampleBank_listing,
    selectLoop, getAccount_alice, authenticate, authLoop]
  simp [aliceAccount]

/-! ## Lemmas: the PIN loop -/

theorem authenticate_take (stored : List Char) (pins : List (List Char)) :
    authenticate stored (pins.take 3) = authenticate stored pins := by
  unfold authenticate
  rcases pins with _ | ⟨a, _ | ⟨b, _ | ⟨c, rest⟩⟩⟩ <;> simp [authLoop]

theorem authenticate_wrong (stored p1 p2 p3 : List Char) (rest : List (List Char))
    (h1 : p1 ≠ stored) (h2 : p2 ≠ stored) (h3 : p3 ≠ stored) :
    authenticate stored (p1 :: p2 :: p3 :: rest) = .failed := by
  simp [authenticate, authLoop, Ne.symm h1, Ne.symm h2, Ne.symm h3]

theorem deposit_take_pins (s : Bank) (inp : CashIn) :
    deposit s { inp with pins := inp.pins.take 3 } = deposit s inp := by
  unfold deposit
  simp only [authenticate_take]

theorem withdraw_take_pins (s : Bank) (inp : CashIn) :
    withdraw s { inp with pins := inp.pins.take 3 } = withdraw s inp := by
  unfold withdraw
  simp only [authenticate_take]

theorem remittance_take_pins (s : Bank) (inp : RemitIn) :
    remittance s { inp with pins := inp.pins.take 3 } = remittance s inp := by
  unfold remittance
  simp only [authenticate_take]

theorem deleteAccount_take_pins (s : Bank) (inp : DeleteIn) :
    deleteAccount s { inp with pins := inp.pins.take 3 } = deleteAccount s inp := by
  unfold deleteAccount
  simp only [authenticate_take]

theorem deposit_auth_failed (s : Bank) (inp : CashIn) (num : Int)
    (hsel : (listAllAccountsAndSelect s inp.indexOpens inp.sels).1 = .chosen num)
    (hauth : authenticate (getAccount s num).pin inp.pins = .failed) :
    (deposit s inp).1 = s ∧ (deposit s inp).2 ≠ .success ∧
    ((getAccount s num).accountNumber ≠ 0 → (getAccount s num).status ≠ 1 →
      (deposit s inp).2 = .maxAttempts) := by
  unfold deposit
  simp only [hsel, hauth]
  by_cases h0 : (getAccount s num).accountNumber = 0
  · simp [h0]
  · by_cases h1 : (getAccount s num).status = 1
    · simp [h0, h1]
    · simp [h0, h1]

theorem withdraw_auth_failed (s : Bank) (inp : CashIn) (num : Int)
    (hsel : (listAllAccountsAndSelect s inp.indexOpens inp.sels).1 = .chosen num)
    (hauth : authenticate (getAccount s num).pin inp.pins = .failed) :
    (withdraw s inp).1 = s ∧ (withdraw s inp).2 ≠ .success ∧
    ((getAccount s num).accountNumber ≠ 0 → (getAccount s num).status ≠ 1 →
      (withdraw s inp).2 = .maxAttempts) := by
  unfold withdraw
  simp only [hsel, hauth]
  by_cases h0 : (getAccount s num).accountNumber = 0
  · simp [h0]
  · by_cases h1 : (getAccount s num).status = 1
    · simp [h0, h1]
    · simp [h0, h1]

theorem remittance_auth_failed (s : Bank) (inp : RemitIn) (num : Int)
    (hsel : (listAllAccountsAndSelect s inp.senderIndexOpens inp.sels).1 = .chosen num)
    (hauth : authenticate (getAccount s num).pin inp.pins = .failed) :
    (remittance s inp).1 = s ∧ (remittance s inp).2 ≠ .success ∧
    (∀ receiver,
      (listAllAccountsAndSelect s inp.receiverIndexOpens
        (listAllAccountsAndSelect s inp.senderIndexOpens inp.sels).2).1 = .chosen receiver →
      num ≠ receiver → (getAccount s num).accountNumber ≠ 0 →
      (getAccount s receiver).accountNumber ≠ 0 → (getAccount s num).status ≠ 1 →
      (getAccount s receiver).status ≠ 1 → (remittance s inp).2 = .maxAttempts) := by
  rcases hpair : listAllAccountsAndSelect s inp.senderIndexOpens inp.sels with ⟨sel1, sels1⟩
  rw [hpair] at hsel
  simp only [] at hsel
  subst hsel
  unfold remittance
  simp only [hpair]
  cases hsel2 : (listAllAccountsAndSelect s inp.receiverIndexOpens sels1).1 with
  | ret0 => simp
  | pending => simp
  | chosen receiver =>
    simp only [hauth]
    by_cases hsr : num = receiver
    · simp [hsr]
    by_cases h0 : (getAccount s num).accountNumber = 0
    · simp [hsr, h0]
    by_cases h0r : (getAccount s receiver).accountNumber = 0
    · simp [hsr, h0, h0r]
    by_cases h1 : (getAccount s num).status = 1
    · simp [hsr, h0, h0r, h1]
    by_cases h1r : (getAccount s receiver).status = 1
    · simp [hsr, h0, h0r, h1, h1r]
    simp [hsr, h0, h0r, h1, h1r]

theorem deleteAccount_auth_failed (s : Bank) (inp : DeleteIn) (num : Int)
    (hsel : (listAllAccountsAndSelect s inp.indexOpens inp.sels).1 = .chosen num)
    (hauth : authenticate (getAccount s num).pin inp.pins = .failed) :
    (deleteAccount s inp).1 = s ∧ (deleteAccount s inp).2 ≠ .success ∧
    ((getAccount s num).accountNumber ≠ 0 →
      (4 ≤ (getAccount s num).idNumber.length ∧
        (getAccount s num).idNumber.drop ((getAccount s num).idNumber.length - 4) = inp.id) →
      (deleteAccount s inp).2 = .maxAttempts) := by
  unfold deleteAccount
  simp only [hsel, hauth]
  by_cases h0 : (getAccount s num).accountNumber = 0
  · simp [h0]
  · by_cases hid : (getAccount s num).idNumber.length < 4 ∨
        (getAccount s num).idNumber.drop ((getAccount s num).idNumber.length - 4) ≠ inp.id
    · simp only [h0, hid, if_true, if_false]
      refine ⟨trivial, by simp, ?_⟩
      intro _ h
      rcases hid with hid | hid
      · omega
      · exact absurd h.2 hid
    · simp [h0, hid]

/-- The record `createAccount` wrote loads back under the assigned number. -/
theorem createAccount_loads_name (s : Bank) (inp : CreateIn) (hname : Word inp.name)
    (hids : ∀ t ∈ inp.ids, NoSpace t) (hsucc : (createAccount s inp).2 = .success) :
    (getAccount (createAccount s inp).1
      (assignNumber s.index inp.indexReadOpens inp.r1 inp.r2)).accountName = inp.name ∧
    (getAccount (createAccount s inp).1
      (assignNumber s.index inp.indexReadOpens inp.r1 inp.r2)).accountNumber =
      assignNumber s.index inp.indexReadOpens inp.r1 inp.r2 := by
  rcases createAccount_cases s inp with ⟨_, h⟩ | ⟨idNumber, accountType, pin, h1, h2, h3, _, _,
    hfiles, _, _⟩
  · exact absurd hsucc h
  · obtain ⟨hmem, hlen⟩ := readIdNumber_some _ _ h1
    have hw : (⟨assignNumber s.index inp.indexReadOpens inp.r1 inp.r2, inp.name, pin, 0, 0,
        accountType, idNumber⟩ : Account).Wordy :=
      ⟨hname, word_of_pin pin (readNewPin_some _ _ h3),
        word_of_type accountType (readAccountType_some _ _ h2),
        word_of_id idNumber hlen (hids idNumber hmem)⟩
    rw [getAccount_of_file _ _ _ hw (by rw [hfiles, Function.update_same])]
    exact ⟨rfl, rfl⟩

/-! ## Lemmas: a failing save -/

theorem deposit_save_fails (s : Bank) (inp : CashIn) (h : inp.saveOpens = false) :
    (deposit s inp).1 = s ∧ (deposit s inp).2 ≠ .success ∧
    ((deposit s { inp with saveOpens := true }).2 = .success →
      (deposit s inp).2 = .saveFailed) := by
  unfold deposit
  simp only [h]
  cases (listAllAccountsAndSelect s inp.indexOpens inp.sels).1 with
  | ret0 => simp
  | pending => simp
  | chosen num =>
    simp only []
    by_cases h0 : (getAccount s num).accountNumber = 0
    · simp [h0]
    by_cases h1 : (getAccount s num).status = 1
    · simp [h0, h1]
    simp only [h0, h1, if_false]
    cases authenticate (getAccount s num).pin inp.pins with
    | pending => simp
    | failed => simp
    | ok =>
      simp only []
      cases depositAmount inp.amounts with
      | none => simp
      | some a => simp [saveAccount_false]

theorem withdraw_save_fails (s : Bank) (inp : CashIn) (h : inp.saveOpens = false) :
    (withdraw s inp).1 = s ∧ (withdraw s inp).2 ≠ .success ∧
    ((withdraw s { inp with saveOpens := true }).2 = .success →
      (withdraw s inp).2 = .saveFailed) := by
  unfold withdraw
  simp only [h]
  cases (listAllAccountsAndSelect s inp.indexOpens inp.sels).1 with
  | ret0 => simp
  | pending => simp
  | chosen num =>
    simp only []
    by_cases h0 : (getAccount s num).accountNumber = 0
    · simp [h0]
    by_cases h1 : (getAccount s num).status = 1
    · simp [h0, h1]
    simp only [h0, h1, if_false]
    cases authenticate (getAccount s num).pin inp.pins with
    | pending => simp
    | failed => simp
    | ok =>
      simp only []
      cases withdrawAmount (getAccount s num).balance inp.amounts with
      | none => simp
      | some a => simp [saveAccount_false]

theorem remittance_save_fails (s : Bank) (inp : RemitIn)
    (h : inp.saveSenderOpens = false ∨ inp.saveReceiverOpens = false) :
    (remittance s inp).1.log = s.log ∧ (remittance s inp).1.index = s.index ∧
    (remittance s inp).2 ≠ .success ∧
    ((remittance s { inp with saveSenderOpens := true, saveReceiverOpens := true }).2 = .success →
      (remittance s inp).2 = .saveFailed) := by
  unfold remittance
  rcases listAllAccountsAndSelect s inp.senderIndexOpens inp.sels with ⟨sel1, sels1⟩
  cases sel1 with
  | ret0 => simp
  | pending => simp
  | chosen sender =>
    simp only []
    cases (listAllAccountsAndSelect s inp.receiverIndexOpens sels1).1 with
    | ret0 => simp
    | pending => simp
    | chosen receiver =>
      simp only []
      by_cases hsr : sender = receiver
      · simp [hsr]
      by_cases h0 : (getAccount s sender).accountNumber = 0
      · simp [hsr, h0]
      by_cases h0r : (getAccount s receiver).accountNumber = 0
      · simp [hsr, h0, h0r]
      by_cases h1 : (getAccount s sender).status = 1
      · simp [hsr, h0, h0r, h1]
      by_cases h1r : (getAccount s receiver).status = 1
      · simp [hsr, h0, h0r, h1, h1r]
      simp only [hsr, h0, h0r, h1, h1r, if_false]
      cases authenticate (getAccount s sender).pin inp.pins with
      | pending => simp
      | failed => simp
      | ok =>
        simp only []
        cases remitLoop (getAccount s sender) (getAccount s receiver) 0 inp.amounts
            inp.retries with
        | pending => simp
        | aborted => simp
        | accepted a fee =>
          simp only []
          cases hs1 : inp.saveSenderOpens with
          | false => simp [saveAccount_false]
          | true =>
            have hs2 : inp.saveReceiverOpens = false := by
              rcases h with h | h
              · rw [hs1] at h; exact absurd h (by decide)
              · exact h
            simp [hs2, saveAccount_false, saveAccount_true]

theorem sampleDeposit_run :
    deposit sampleBank sampleDeposit =
      (logTransaction (saveAccount sampleBank { aliceAccount with balance := 2000 + 100 } true).1
        (.deposit 1000001 100) true, .success) := by
  simp [deposit, sampleDeposit, listAllAccountsAndSelect, sampleBank_listing, selectLoop,
    getAccount_alice, authenticate, authLoop, depositAmount]
  norm_num [aliceAccount]
  rfl

/-! ## Lemmas: every operation keeps the store well formed -/

/-- `createAccount` keeps the store well formed and the balances at least zero,
when the name read is a word and the IDs read have no white space. -/
theorem createAccount_preserves (s : Bank) (hwf : s.WellFormed) (hnn : s.NonNegative)
    (inp : CreateIn) (hname : Word inp.name) (hids : ∀ t ∈ inp.ids, NoSpace t) :
    (createAccount s inp).1.WellFormed ∧ (createAccount s inp).1.NonNegative := by
  rcases createAccount_cases s inp with ⟨h, _⟩ | ⟨idNumber, accountType, pin, h1, h2, h3, _, _,
    hfiles, _, _⟩
  · rw [h]; exact ⟨hwf, hnn⟩
  · obtain ⟨hmem, hlen⟩ := readIdNumber_some _ _ h1
    have hw : (⟨assignNumber s.index inp.indexReadOpens inp.r1 inp.r2, inp.name, pin, 0, 0,
        accountType, idNumber⟩ : Account).Wordy :=
      ⟨hname, word_of_pin pin (readNewPin_some _ _ h3),
        word_of_type accountType (readAccountType_some _ _ h2),
        word_of_id idNumber hlen (hids idNumber hmem)⟩
    have hfiles' : (createAccount s inp).1.files = (saveAccount s
        ⟨assignNumber s.index inp.indexReadOpens inp.r1 inp.r2, inp.name, pin, 0, 0,
          accountType, idNumber⟩ true).1.files := by
      rw [hfiles]; rfl
    exact ⟨wellFormed_of_files _ _ hfiles' (wellFormed_save s hwf _ hw true),
      nonNegative_of_files _ _ hfiles' (nonNegative_save s hnn _ hw (le_refl _) true)⟩

/-- `deleteAccount` keeps the store well formed and the balances at least zero. -/
theorem deleteAccount_preserves (s : Bank) (hwf : s.WellFormed) (hnn : s.NonNegative)
    (inp : DeleteIn) :
    (deleteAccount s inp).1.WellFormed ∧ (deleteAccount s inp).1.NonNegative := by
  have key : ∀ (t : Bank) (x : Int), t.files = Function.update s.files x none →
      t.WellFormed ∧ t.NonNegative := by
    intro t x ht
    constructor
    · intro n txt hf
      rw [ht] at hf
      by_cases hn : n = x
      · subst hn; simp at hf
      · rw [Function.update_noteq hn] at hf
        exact hwf n txt hf
    · intro n txt hf
      rw [ht] at hf
      by_cases hn : n = x
      · subst hn; simp at hf
      · rw [Function.update_noteq hn] at hf
        exact hnn n txt hf
  rcases deleteAccount_cases s inp with ⟨h, _, _⟩ | ⟨num, _, _, _, _, _, _, hcase⟩
  · rw [h]; exact ⟨hwf, hnn⟩
  · rcases hcase with ⟨_, heq⟩ | ⟨_, _, heq⟩
    · exact key _ (getAccount s num).accountNumber (by rw [heq])
    · exact key _ (getAccount s num).accountNumber (by rw [heq, logTransaction_files])

theorem emptyBank_wellFormed : emptyBank.WellFormed := by
  intro n txt h
  simp [emptyBank] at h

theorem emptyBank_nonNegative : emptyBank.NonNegative := by
  intro n txt h
  simp [emptyBank] at h

/-! ## Lemmas: index and record files stay consistent -/

theorem getAccount_file_ne_none (s : Bank) (n : Int) (h : (getAccount s n).accountNumber ≠ 0) :
    s.files n ≠ none := by
  intro hf
  rw [getAccount_missing s n hf] at h
  exact h rfl

theorem saveAccount_files_at (s : Bank) (acc : Account) (x : Int)
    (e : acc.accountNumber = x) :
    (saveAccount s acc true).1.files x = some (saveAccountText acc) ∧
    (∀ n, n ≠ x → (saveAccount s acc true).1.files n = s.files n) ∧
    (saveAccount s acc true).1.index = s.index ∧ (saveAccount s acc true).1.log = s.log := by
  subst e
  rw [saveAccount_true]
  refine ⟨by simp, fun n hn => by simp [Function.update_noteq hn], rfl, rfl⟩

theorem consistent_rewrite (s t : Bank) (hc : s.Consistent) (x : Int)
    (hx : s.files x ≠ none) (hx' : t.files x ≠ none)
    (hf : ∀ n, n ≠ x → t.files n = s.files n) (hi : t.index = s.index) : t.Consistent := by
  intro n
  rw [hi, hc n]
  by_cases hn : n = x
  · subst hn
    simp [hx, hx']
  · rw [hf n hn]

theorem consistent_add (s t : Bank) (hc : s.Consistent) (x : Int) (txt : List Char)
    (hf : t.files = Function.update s.files x (some txt))
    (hi : t.index = s.index ++ [x]) : t.Consistent := by
  intro n
  rw [hi, hf, List.mem_append, hc n]
  by_cases hn : n = x
  · subst hn
    simp
  · rw [Function.update_noteq hn]
    simp [hn]

theorem consistent_remove (s t : Bank) (hc : s.Consistent) (x : Int)
    (hf : t.files = Function.update s.files x none)
    (hi : t.index = s.index.filter (fun n => n ≠ x)) : t.Consistent := by
  intro n
  rw [hi, hf, List.mem_filter, hc n]
  by_cases hn : n = x
  · subst hn
    simp
  · rw [Function.update_noteq hn]
    simp [hn]

theorem deposit_wellFormed (s : Bank) (hwf : s.WellFormed) (inp : CashIn) :
    (deposit s inp).1.WellFormed := by
  rcases deposit_cases s inp with ⟨h, _⟩ | ⟨num, a, _, h0, _, _, _, _, heq⟩
  · rw [h]; exact hwf
  · rw [heq]
    exact wellFormed_of_files _ _ (logTransaction_files _ _ _)
      (wellFormed_save s hwf _ (wordy_setBalance _ _ (getAccount_wordy s hwf num h0)) true)

theorem withdraw_wellFormed (s : Bank) (hwf : s.WellFormed) (inp : CashIn) :
    (withdraw s inp).1.WellFormed := by
  rcases withdraw_cases s inp with ⟨h, _⟩ | ⟨num, a, _, h0, _, _, _, _, heq⟩
  · rw [h]; exact hwf
  · rw [heq]
    exact wellFormed_of_files _ _ (logTransaction_files _ _ _)
      (wellFormed_save s hwf _ (wordy_setBalance _ _ (getAccount_wordy s hwf num h0)) true)

theorem remittance_wellFormed (s : Bank) (hwf : s.WellFormed) (inp : RemitIn) :
    (remittance s inp).1.WellFormed := by
  rcases remittance_cases s inp with ⟨h, _⟩ |
    ⟨sender, sels1, receiver, a, fee, _, _, _, h0, h0r, _, _, _, _, _, hcase⟩
  · rw [h]; exact hwf
  · have hwf1 := wellFormed_save s hwf _
      (wordy_setBalance _ ((getAccount s sender).balance - (a + fee))
        (getAccount_wordy s hwf sender h0)) true
    rcases hcase with ⟨_, heq⟩ | ⟨_, heq⟩
    · rw [heq]; exact hwf1
    · rw [heq]
      exact wellFormed_of_files _ _ (logTransaction_files _ _ _)
        (wellFormed_save _ hwf1 _ (wordy_setBalance _ ((getAccount s receiver).balance + a)
          (getAccount_wordy s hwf receiver h0r)) true)

theorem deleteAccount_wellFormed (s : Bank) (hwf : s.WellFormed) (inp : DeleteIn) :
    (deleteAccount s inp).1.WellFormed := by
  have key : ∀ (t : Bank) (x : Int), t.files = Function.update s.files x none →
      t.WellFormed := by
    intro t x ht n txt hf
    rw [ht] at hf
    by_cases hn : n = x
    · subst hn; simp at hf
    · rw [Function.update_noteq hn] at hf
      exact hwf n txt hf
  rcases deleteAccount_cases s inp with ⟨h, _, _⟩ | ⟨num, _, _, _, _, _, _, hcase⟩
  · rw [h]; exact hwf
  · rcases hcase with ⟨_, heq⟩ | ⟨_, _, heq⟩
    · exact key _ (getAccount s num).accountNumber (by rw [heq])
    · exact key _ (getAccount s num).accountNumber (by rw [heq, logTransaction_files])

theorem deposit_consistent (s : Bank) (hwf : s.WellFormed) (hc : s.Consistent) (inp : CashIn) :
    (deposit s inp).1.Consistent := by
  rcases deposit_cases s inp with ⟨h, _⟩ | ⟨num, a, _, h0, _, _, _, _, heq⟩
  · rw [h]; exact hc
  · rw [heq]
    obtain ⟨f1, f2, f3, _⟩ := saveAccount_files_at s
      { getAccount s num with balance := (getAccount s num).balance + a } num
      (getAccount_number s hwf num h0)
    refine consistent_rewrite s _ hc num (getAccount_file_ne_none s num h0) ?_ ?_ ?_
    · rw [logTransaction_files, f1]
      simp
    · intro n hn
      rw [logTransaction_files, f2 n hn]
    · rw [logTransaction_index, f3]

theorem withdraw_consistent (s : Bank) (hwf : s.WellFormed) (hc : s.Consistent) (inp : CashIn) :
    (withdraw s inp).1.Consistent := by
  rcases withdraw_cases s inp with ⟨h, _⟩ | ⟨num, a, _, h0, _, _, _, _, heq⟩
  · rw [h]; exact hc
  · rw [heq]
    obtain ⟨f1, f2, f3, _⟩ := saveAccount_files_at s
      { getAccount s num with balance := (getAccount s num).balance - a } num
      (getAccount_number s hwf num h0)
    refine consistent_rewrite s _ hc num (getAccount_file_ne_none s num h0) ?_ ?_ ?_
    · rw [logTransaction_files, f1]
      simp
    · intro n hn
      rw [logTransaction_files, f2 n hn]
    · rw [logTransaction_index, f3]

theorem remittance_consistent (s : Bank) (hwf : s.WellFormed) (hc : s.Consistent)
    (inp : RemitIn) : (remittance s inp).1.Consistent := by
  rcases remittance_cases s inp with ⟨h, _⟩ |
    ⟨sender, sels1, receiver, a, fee, _, _, _, h0, h0r, _, _, _, _, _, hcase⟩
  · rw [h]; exact hc
  · have e1 := getAccount_number s hwf sender h0
    have e2 := getAccount_number s hwf receiver h0r
    obtain ⟨f1, f2, f3, _⟩ := saveAccount_files_at s
      { getAccount s sender with balance := (getAccount s sender).balance - (a + fee) }
      sender e1
    have hc1 : (saveAccount s { getAccount s sender with
        balance := (getAccount s sender).balance - (a + fee) } true).1.Consistent := by
      refine consistent_rewrite s _ hc sender (getAccount_file_ne_none s sender h0) ?_ f2 f3
      rw [f1]
      simp
    rcases hcase with ⟨_, heq⟩ | ⟨_, heq⟩
    · rw [heq]; exact hc1
    · rw [heq]
      obtain ⟨g1, g2, g3, _⟩ := saveAccount_files_at
        (saveAccount s { getAccount s sender with
          balance := (getAccount s sender).balance - (a + fee) } true).1
        { getAccount s receiver with balance := (getAccount s receiver).balance + a }
        receiver e2
      refine consistent_rewrite _ _ hc1 receiver ?_ ?_ ?_ ?_
      · by_cases hsr : receiver = sender
        · rw [hsr, f1]; simp
        · rw [f2 receiver hsr]
          exact getAccount_file_ne_none s receiver h0r
      · rw [logTransaction_files, g1]
        simp
      · intro n hn
        rw [logTransaction_files, g2 n hn]
      · rw [logTransaction_index, g3]

theorem createAccount_consistent (s : Bank) (hc : s.Consistent) (inp : CreateIn)
    (happend : inp.indexAppendOpens = true) : (createAccount s inp).1.Consistent := by
  rcases createAccount_cases s inp with ⟨h, _⟩ | ⟨idNumber, accountType, pin, _, _, _, _, _,
    hfiles, hindex, _⟩
  · rw [h]; exact hc
  · rw [happend] at hindex
    exact consistent_add s _ hc _ _ hfiles hindex

theorem deleteAccount_consistent (s : Bank) (hwf : s.WellFormed) (hc : s.Consistent)
    (inp : DeleteIn) (hindex : inp.indexReadOpens = true) (htemp : inp.tempOpens = true) :
    (deleteAccount s inp).1.Consistent := by
  rcases deleteAccount_cases s inp with ⟨h, _, _⟩ | ⟨num, _, h0, _, _, _, _, hcase⟩
  · rw [h]; exact hc
  · rcases hcase with ⟨hno, _⟩ | ⟨_, _, heq⟩
    · exact absurd ⟨hindex, htemp⟩ hno
    · rw [heq]
      refine consistent_remove s _ hc num ?_ ?_
      · rw [logTransaction_files]
        simp only [getAccount_number s hwf num h0]
      · rw [logTransaction_index]

theorem createAccount_wellFormed (s : Bank) (hwf : s.WellFormed) (inp : CreateIn)
    (hname : Word inp.name) (hids : ∀ t ∈ inp.ids, NoSpace t) :
    (createAccount s inp).1.WellFormed := by
  rcases createAccount_cases s inp with ⟨h, _⟩ | ⟨idNumber, accountType, pin, h1, h2, h3, _, _,
    hfiles, _, _⟩
  · rw [h]; exact hwf
  · obtain ⟨hmem, hlen⟩ := readIdNumber_some _ _ h1
    have hw : (⟨assignNumber s.index inp.indexReadOpens inp.r1 inp.r2, inp.name, pin, 0, 0,
        accountType, idNumber⟩ : Account).Wordy :=
      ⟨hname, word_of_pin pin (readNewPin_some _ _ h3),
        word_of_type accountType (readAccountType_some _ _ h2),
        word_of_id idNumber hlen (hids idNumber hmem)⟩
    have hfiles' : (createAccount s inp).1.files = (saveAccount s
        ⟨assignNumber s.index inp.indexReadOpens inp.r1 inp.r2, inp.name, pin, 0, 0,
          accountType, idNumber⟩ true).1.files := by
      rw [hfiles]; rfl
    exact wellFormed_of_files _ _ hfiles' (wellFormed_save s hwf _ hw true)

theorem sampleBank_consistent : sampleBank.Consistent := by
  intro n
  have h1 : sampleBank.index = [1000001, 1000002] := rfl
  rw [h1]
  unfold sampleBank
  simp only [List.mem_cons, List.mem_singleton, List.not_mem_nil, or_false]
  by_cases a : n = 1000001
  · simp [a]
  · by_cases b : n = 1000002
    · simp [b]
    · simp [a, b]

theorem authenticate_ok (stored : List Char) (pins : List (List Char))
    (h : authenticate stored pins = .ok) : ∃ p ∈ pins.take 3, p = stored := by
  unfold authenticate at h
  rcases pins with _ | ⟨a, _ | ⟨b, _ | ⟨c, rest⟩⟩⟩
  · simp [authLoop] at h
  · by_cases ha : stored = a
    · exact ⟨a, by simp, ha.symm⟩
    · simp [authLoop, ha] at h
  · by_cases ha : stored = a
    · exact ⟨a, by simp, ha.symm⟩
    · by_cases hb : stored = b
      · exact ⟨b, by simp, hb.symm⟩
      · simp [authLoop, ha, hb] at h
  · by_cases ha : stored = a
    · exact ⟨a, by simp, ha.symm⟩
    · by_cases hb : stored = b
      · exact ⟨b, by simp, hb.symm⟩
      · by_cases hcc : stored = c
        · exact ⟨c, by simp, hcc.symm⟩
        · simp [authLoop, ha, hb, hcc] at h

/-! ## Lemmas: closed accounts -/

theorem closedAccount_wordy : closedAccount.Wordy := by decide

theorem getAccount_closedBank_alice : getAccount closedBank 1000001 = aliceAccount := by
  rw [getAccount_of_file closedBank 1000001 aliceAccount aliceAccount_wordy rfl]
  have : round2 aliceAccount.balance = aliceAccount.balance := by
    have := round2_of_hundredths 200000
    norm_num at this
    exact this
  rw [this]

theorem getAccount_closedBank_closed : getAccount closedBank 1000003 = closedAccount := by
  rw [getAccount_of_file closedBank 1000003 closedAccount closedAccount_wordy rfl]
  have : round2 closedAccount.balance = closedAccount.balance := by
    have := round2_of_hundredths 1000
    norm_num at this
    exact this
  rw [this]

theorem closedBank_listing :
    listAccounts closedBank closedBank.index [] = [1000001, 1000003] := by
  have h : closedBank.index = [1000001, 1000003] := rfl
  rw [h]
  simp [listAccounts, getAccount_closedBank_alice, getAccount_closedBank_closed, aliceAccount,
    closedAccount]

theorem deposit_closed (s : Bank) (inp : CashIn) (X : Int)
    (hsel : (listAllAccountsAndSelect s inp.indexOpens inp.sels).1 = .chosen X)
    (hfound : (getAccount s X).accountNumber ≠ 0) (hclosed : (getAccount s X).status = 1) :
    deposit s inp = (s, .closed) := by
  unfold deposit
  simp [hsel, hfound, hclosed]

theorem withdraw_closed (s : Bank) (inp : CashIn) (X : Int)
    (hsel : (listAllAccountsAndSelect s inp.indexOpens inp.sels).1 = .chosen X)
    (hfound : (getAccount s X).accountNumber ≠ 0) (hclosed : (getAccount s X).status = 1) :
    withdraw s inp = (s, .closed) := by
  unfold withdraw
  simp [hsel, hfound, hclosed]

/-- A remittance in which a party is closed ends before the PIN loop: the bank is
unchanged and the result does not depend on PINs, amounts or retry answers. -/
theorem remittance_closed (s : Bank) (inp : RemitIn) (sender receiver : Int)
    (sels1 : List (Option Int))
    (h1 : listAllAccountsAndSelect s inp.senderIndexOpens inp.sels = (.chosen sender, sels1))
    (h2 : (listAllAccountsAndSelect s inp.receiverIndexOpens sels1).1 = .chosen receiver)
    (hclosed : (getAccount s sender).status = 1 ∨ (getAccount s receiver).status = 1) :
    (remittance s inp).1 = s ∧
    ((remittance s inp).2 = .sameAccount ∨ (remittance s inp).2 = .notFound ∨
      (remittance s inp).2 = .receiverNotFound ∨ (remittance s inp).2 = .closed ∨
      (remittance s inp).2 = .receiverClosed) ∧
    (sender ≠ receiver → (getAccount s sender).accountNumber ≠ 0 →
      (getAccount s receiver).accountNumber ≠ 0 →
      ((getAccount s sender).status = 1 → (remittance s inp).2 = .closed) ∧
      ((getAccount s sender).status ≠ 1 → (remittance s inp).2 = .receiverClosed)) ∧
    (∀ pins amounts retries,
      remittance s { inp with pins := pins, amounts := amounts, retries := retries } =
        remittance s inp) := by
  have key : ∀ i : RemitIn, i.senderIndexOpens = inp.senderIndexOpens →
      i.receiverIndexOpens = inp.receiverIndexOpens → i.sels = inp.sels →
      remittance s i =
        (s, if sender = receiver then .sameAccount
          else if (getAccount s sender).accountNumber = 0 then .notFound
          else if (getAccount s receiver).accountNumber = 0 then .receiverNotFound
          else if (getAccount s sender).status = 1 then .closed
          else .receiverClosed) := by
    intro i e1 e2 e3
    unfold remittance
    simp only [e1, e2, e3, h1, h2]
    by_cases hsr : sender = receiver
    · simp [hsr]
    by_cases h0 : (getAccount s sender).accountNumber = 0
    · simp [hsr, h0]
    by_cases h0r : (getAccount s receiver).accountNumber = 0
    · simp [hsr, h0, h0r]
    by_cases hs : (getAccount s sender).status = 1
    · simp [hsr, h0, h0r, hs]
    · have hr : (getAccount s receiver).status = 1 := by
        rcases hclosed with h | h
        · exact absurd h hs
        · exact h
      simp [hsr, h0, h0r, hs, hr]
  have hrun := key inp rfl rfl rfl
  refine ⟨by rw [hrun], ?_, ?_, ?_⟩
  · rw [hrun]
    simp only []
    split
    · exact Or.inl rfl
    · split
      · exact Or.inr (Or.inl rfl)
      · split
        · exact Or.inr (Or.inr (Or.inl rfl))
        · split
          · exact Or.inr (Or.inr (Or.inr (Or.inl rfl)))
          · exact Or.inr (Or.inr (Or.inr (Or.inr rfl)))
  · intro hsr h0 h0r
    rw [hrun]
    constructor
    · intro hs; simp [hsr, h0, h0r, hs]
    · intro hs; simp [hsr, h0, h0r, hs]
  · intro pins amounts retries
    rw [hrun]
    exact key _ rfl rfl rfl

/-! ## Lemmas: record loads -/

theorem listLoads_short (s : Bank) (index kept : List Int)
    (h : kept.length + index.length ≤ 100) : listLoads s index kept = index := by
  induction index generalizing kept with
  | nil => rfl
  | cons num rest ih =>
    simp only [List.length_cons] at h
    have hk : kept.length < 100 := by omega
    unfold listLoads
    simp only [hk, if_true]
    split
    · rw [ih _ (by simp only [List.length_append, List.length_singleton]; omega)]
    · rw [ih _ (by omega)]

theorem sampleBank_loads : selectionLoads sampleBank true = [1000001, 1000002] := by
  unfold selectionLoads
  rw [if_pos rfl]
  exact listLoads_short sampleBank _ [] (by decide)

theorem sampleSelfRemit_first :
    listAllAccountsAndSelect sampleBank sampleSelfRemit.senderIndexOpens sampleSelfRemit.sels =
      (.chosen 1000001, [some 1]) := by
  simp [sampleSelfRemit, listAllAccountsAndSelect, sampleBank_listing, selectLoop]

theorem sampleSelfRemit_second :
    (listAllAccountsAndSelect sampleBank sampleSelfRemit.receiverIndexOpens [some 1]).1 =
      .chosen 1000001 := by
  simp [sampleSelfRemit, listAllAccountsAndSelect, sampleBank_listing, selectLoop]

/-! ## Lemmas: what a monetary operation leaves alone -/

theorem getAccount_congr (s t : Bank) (n : Int) (h : t.files n = s.files n) :
    getAccount t n = getAccount s n := by
  unfold getAccount
  rw [h]

/-- Saving a loaded record with a new balance: the record loads back with every
other field as before, and no other record file is touched. -/
theorem getAccount_after_save (s : Bank) (hwf : s.WellFormed) (num : Int)
    (h0 : (getAccount s num).accountNumber ≠ 0) (b : ℚ) :
    getAccount (saveAccount s { getAccount s num with balance := b } true).1 num =
      { getAccount s num with balance := round2 b } ∧
    (∀ n, n ≠ num →
      (saveAccount s { getAccount s num with balance := b } true).1.files n = s.files n) ∧
    (saveAccount s { getAccount s num with balance := b } true).1.index = s.index ∧
    (saveAccount s { getAccount s num with balance := b } true).1.log = s.log := by
  obtain ⟨f1, f2, f3, f4⟩ := saveAccount_files_at s { getAccount s num with balance := b } num
    (getAccount_number s hwf num h0)
  refine ⟨?_, f2, f3, f4⟩
  rw [getAccount_of_file _ _ _ (wordy_setBalance _ b (getAccount_wordy s hwf num h0)) f1]

theorem deposit_frame (s : Bank) (hwf : s.WellFormed) (inp : CashIn)
    (hsucc : (deposit s inp).2 = .success) :
    ∃ num a, (listAllAccountsAndSelect s inp.indexOpens inp.sels).1 = .chosen num ∧
      depositAmount inp.amounts = some a ∧
      getAccount (deposit s inp).1 num =
        { getAccount s num with balance := round2 ((getAccount s num).balance + a) } ∧
      (∀ n, n ≠ num → (deposit s inp).1.files n = s.files n) ∧
      (deposit s inp).1.index = s.index := by
  rcases deposit_cases s inp with ⟨_, h⟩ | ⟨num, a, hsel, h0, _, _, hamt, _, heq⟩
  · exact absurd hsucc h
  · obtain ⟨g1, g2, g3, _⟩ := getAccount_after_save s hwf num h0 ((getAccount s num).balance + a)
    refine ⟨num, a, hsel, hamt, ?_, ?_, ?_⟩
    · rw [heq]
      exact (getAccount_congr _ _ num (by rw [logTransaction_files])).trans g1
    · intro n hn
      rw [heq]
      exact (congrFun (logTransaction_files _ _ _) n).trans (g2 n hn)
    · rw [heq]
      exact (logTransaction_index _ _ _).trans g3

theorem withdraw_frame (s : Bank) (hwf : s.WellFormed) (inp : CashIn)
    (hsucc : (withdraw s inp).2 = .success) :
    ∃ num a, (listAllAccountsAndSelect s inp.indexOpens inp.sels).1 = .chosen num ∧
      withdrawAmount (getAccount s num).balance inp.amounts = some a ∧
      getAccount (withdraw s inp).1 num =
        { getAccount s num with balance := round2 ((getAccount s num).balance - a) } ∧
      (∀ n, n ≠ num → (withdraw s inp).1.files n = s.files n) ∧
      (withdraw s inp).1.index = s.index := by
  rcases withdraw_cases s inp with ⟨_, h⟩ | ⟨num, a, hsel, h0, _, _, hamt, _, heq⟩
  · exact absurd hsucc h
  · obtain ⟨g1, g2, g3, _⟩ := getAccount_after_save s hwf num h0 ((getAccount s num).balance - a)
    refine ⟨num, a, hsel, hamt, ?_, ?_, ?_⟩
    · rw [heq]
      exact (getAccount_congr _ _ num (by rw [logTransaction_files])).trans g1
    · intro n hn
      rw [heq]
      exact (congrFun (logTransaction_files _ _ _) n).trans (g2 n hn)
    · rw [heq]
      exact (logTransaction_index _ _ _).trans g3

theorem remittance_frame (s : Bank) (hwf : s.WellFormed) (inp : RemitIn)
    (hsucc : (remittance s inp).2 = .success) :
    ∃ (sender receiver : Int) (sels1 : List (Option Int)) (a fee : ℚ),
      listAllAccountsAndSelect s inp.senderIndexOpens inp.sels = (.chosen sender, sels1) ∧
      (listAllAccountsAndSelect s inp.receiverIndexOpens sels1).1 = .chosen receiver ∧
      sender ≠ receiver ∧
      remitLoop (getAccount s sender) (getAccount s receiver) 0 inp.amounts inp.retries =
        .accepted a fee ∧
      getAccount (remittance s inp).1 sender =
        { getAccount s sender with
          balance := round2 ((getAccount s sender).balance - (a + fee)) } ∧
      getAccount (remittance s inp).1 receiver =
        { getAccount s receiver with
          balance := round2 ((getAccount s receiver).balance + a) } ∧
      (∀ n, n ≠ sender → n ≠ receiver → (remittance s inp).1.files n = s.files n) ∧
      (remittance s inp).1.index = s.index := by
  obtain ⟨sender, receiver, sels1, a, fee, h1, h2, hne, e1, e2, hw1, hw2, hamt, hfiles, hidx, _⟩ :=
    remittance_success s hwf inp hsucc
  refine ⟨sender, receiver, sels1, a, fee, h1, h2, hne, hamt, ?_, ?_, ?_, hidx⟩
  · rw [getAccount_of_file _ sender _ (wordy_setBalance _ _ hw1)
      (by rw [hfiles, Function.update_noteq hne, Function.update_same])]
  · rw [getAccount_of_file _ receiver _ (wordy_setBalance _ _ hw2)
      (by rw [hfiles, Function.update_same])]
  · intro n hs hr
    rw [hfiles, Function.update_noteq hr, Function.update_noteq hs]

theorem sameButBalance_refl (a : Account) : a.SameButBalance a :=
  ⟨rfl, rfl, rfl, rfl, rfl, rfl⟩

theorem sameButBalance_setBalance (a : Account) (b : ℚ) :
    ({ a with balance := b } : Account).SameButBalance a :=
  ⟨rfl, rfl, rfl, rfl, rfl, rfl⟩

theorem sameButBalance_after_save (s : Bank) (hwf : s.WellFormed) (num : Int)
    (h0 : (getAccount s num).accountNumber ≠ 0) (b : ℚ) (n : Int) :
    (getAccount (saveAccount s { getAccount s num with balance := b } true).1 n).SameButBalance
      (getAccount s n) := by
  obtain ⟨g1, g2, _, _⟩ := getAccount_after_save s hwf num h0 b
  by_cases hn : n = num
  · subst hn
    rw [g1]
    exact sameButBalance_setBalance _ _
  · rw [getAccount_congr _ _ n (g2 n hn)]
    exact sameButBalance_refl _

theorem deposit_sameButBalance (s : Bank) (hwf : s.WellFormed) (inp : CashIn) (n : Int) :
    (getAccount (deposit s inp).1 n).SameButBalance (getAccount s n) ∧
    (deposit s inp).1.index = s.index := by
  rcases deposit_cases s inp with ⟨h, _⟩ | ⟨num, a, _, h0, _, _, _, _, heq⟩
  · rw [h]; exact ⟨sameButBalance_refl _, rfl⟩
  · rw [heq]
    constructor
    · have e := getAccount_congr
        (saveAccount s { getAccount s num with balance := (getAccount s num).balance + a }
          true).1
        (logTransaction
          (saveAccount s { getAccount s num with balance := (getAccount s num).balance + a }
            true).1 (.deposit num a) inp.logOpens) n (by rw [logTransaction_files])
      exact e ▸ sameButBalance_after_save s hwf num h0 _ n
    · exact (logTransaction_index _ _ _).trans (saveAccount_files_at s _ _ rfl).2.2.1

theorem withdraw_sameButBalance (s : Bank) (hwf : s.WellFormed) (inp : CashIn) (n : Int) :
    (getAccount (withdraw s inp).1 n).SameButBalance (getAccount s n) ∧
    (withdraw s inp).1.index = s.index := by
  rcases withdraw_cases s inp with ⟨h, _⟩ | ⟨num, a, _, h0, _, _, _, _, heq⟩
  · rw [h]; exact ⟨sameButBalance_refl _, rfl⟩
  · rw [heq]
    constructor
    · have e := getAccount_congr
        (saveAccount s { getAccount s num with balance := (getAccount s num).balance - a }
          true).1
        (logTransaction
          (saveAccount s { getAccount s num with balance := (getAccount s num).balance - a }
            true).1 (.withdrawal num a) inp.logOpens) n (by rw [logTransaction_files])
      exact e ▸ sameButBalance_after_save s hwf num h0 _ n
    · exact (logTransaction_index _ _ _).trans (saveAccount_files_at s _ _ rfl).2.2.1

theorem remittance_sameButBalance (s : Bank) (hwf : s.WellFormed) (inp : RemitIn) (n : Int) :
    (getAccount (remittance s inp).1 n).SameButBalance (getAccount s n) ∧
    (remittance s inp).1.index = s.index := by
  rcases remittance_cases s inp with ⟨h, _⟩ |
    ⟨sender, sels1, receiver, a, fee, _, _, _, h0, _, _, _, _, _, _, hcase⟩
  · rw [h]; exact ⟨sameButBalance_refl _, rfl⟩
  · rcases hcase with ⟨_, heq⟩ | ⟨_, heq⟩
    · rw [heq]
      exact ⟨sameButBalance_after_save s hwf sender h0 _ n,
        (saveAccount_files_at s _ _ rfl).2.2.1⟩
    · have hsucc : (remittance s inp).2 = .success := by rw [heq]
      obtain ⟨x1, x2, _, _, _, _, _, _, _, y1, y2, y3, y4⟩ := remittance_frame s hwf inp hsucc
      refine ⟨?_, y4⟩
      by_cases hs : n = x1
      · subst hs
        rw [y1]
        exact sameButBalance_setBalance _ _
      · by_cases hr : n = x2
        · subst hr
          rw [y2]
          exact sameButBalance_setBalance _ _
        · rw [getAccount_congr _ _ n (y3 n hs hr)]
          exact sameButBalance_refl _

/-! ## Lemmas: retries in the amount loop of `remittance` -/

/-- With a fee variable that the schedule overrides, a run of amounts that are
each turned down for insufficient funds and each followed by a retry, then an
amount the sender can pay, is accepted with the schedule's fee for that amount. -/
theorem remitLoop_retries (acc1 acc2 : Account) (rejected : List ℚ) (ys : List Char) (f a : ℚ)
    (rest : List (Option ℚ)) (more : List Char)
    (hf : ∀ x, remitFee acc1.accountType acc2.accountType x f =
      feeSchedule acc1.accountType acc2.accountType x)
    (hlen : ys.length = rejected.length)
    (hys : ∀ y ∈ ys, y = 'y' ∨ y = 'Y')
    (hrej : ∀ x ∈ rejected, 0 < x ∧
      acc1.balance < x + feeSchedule acc1.accountType acc2.accountType x)
    (ha : 0 < a) (hfunds : a + feeSchedule acc1.accountType acc2.accountType a ≤ acc1.balance) :
    remitLoop acc1 acc2 f (rejected.map some ++ some a :: rest) (ys ++ more) =
      .accepted a (feeSchedule acc1.accountType acc2.accountType a) := by
  induction rejected generalizing ys f with
  | nil =>
    simp only [List.map_nil, List.nil_append, remitLoop, not_le.mpr ha, if_false, hf,
      not_lt.mpr hfunds]
  | cons x xs ih =>
    cases ys with
    | nil => simp at hlen
    | cons y ys' =>
      obtain ⟨hx0, hxf⟩ := hrej x (by simp)
      have hy := hys y (by simp)
      simp only [List.map_cons, List.cons_append, remitLoop, not_le.mpr hx0, if_false, hf, hxf,
        if_true, hy]
      apply ih ys' (feeSchedule acc1.accountType acc2.accountType x)
      · intro z
        rw [← hf x, remitFee_remitFee, hf z]
      · simpa using hlen
      · intro z hz
        exact hys z (by simp [hz])
      · intro z hz
        exact hrej z (by simp [hz])

theorem sampleRetryRemit_run :
    remittance sampleBank sampleRetryRemit =
      (logTransaction
        (saveAccount
          (saveAccount sampleBank { aliceAccount with balance := 2000 - (100 + 2) } true).1
          { bobAccount with balance := 50 + 100 } true).1
        (.remittance 1000001 1000002 100 2) true, .success) := by
  simp [remittance, sampleRetryRemit, listAllAccountsAndSelect, sampleBank_listing, selectLoop,
    getAccount_alice, getAccount_bob, authenticate, authLoop, remitLoop, remitFee]
  norm_num [aliceAccount, bobAccount]
  rfl

/-! ## C1 -/

/-- C4: create followed by load is a round trip. When `createAccount` reports
success on a name that is a word (non-empty, no white space, as `%49s` delivers)
and ID entries without white space, then the ID, type and PIN it took are the
first entered ID of at least 4 characters, the first entered type equal to
`Savings` or `Current` and the first entered PIN of four digits, and `getAccount`
on the assigned number parses, from the text `saveAccount` wrote, a record with
that number, balance 0, status 0 (Active) and exactly that name, PIN, type and ID. -/
theorem create_then_load (s : Bank) (inp : CreateIn) (hname : Word inp.name)
    (hids : ∀ t ∈ inp.ids, NoSpace t) (hsucc : (createAccount s inp).2 = .success) :
    ∃ idNumber accountType pin,
      readIdNumber inp.ids = some idNumber ∧ 4 ≤ idNumber.length ∧
      readAccountType inp.types = some accountType ∧
      (accountType = "Savings".toList ∨ accountType = "Current".toList) ∧
      readNewPin inp.pins = some pin ∧ pin.length = 4 ∧ pin.all isDigit = true ∧
      (createAccount s inp).1.files (assignNumber s.index inp.indexReadOpens inp.r1 inp.r2) =
        some (saveAccountText
          ⟨assignNumber s.index inp.indexReadOpens inp.r1 inp.r2, inp.name, pin, 0, 0,
            accountType, idNumber⟩) ∧
      getAccount (createAccount s inp).1
          (assignNumber s.index inp.indexReadOpens inp.r1 inp.r2) =
        ⟨assignNumber s.index inp.indexReadOpens inp.r1 inp.r2, inp.name, pin, 0, 0,
          accountType, idNumber⟩ := by
  rcases createAccount_cases s inp with ⟨_, h⟩ | ⟨idNumber, accountType, pin, h1, h2, h3, _, _,
    hfiles, _, _⟩
  · exact absurd hsucc h
  · obtain ⟨hmem, hlen⟩ := readIdNumber_some _ _ h1
    have hty := readAccountType_some _ _ h2
    have hp := readNewPin_some _ _ h3
    have hfile : (createAccount s inp).1.files
        (assignNumber s.index inp.indexReadOpens inp.r1 inp.r2) =
        some (saveAccountText
          ⟨assignNumber s.index inp.indexReadOpens inp.r1 inp.r2, inp.name, pin, 0, 0,
            accountType, idNumber⟩) := by
      rw [hfiles, Function.update_same]
    have hw : (⟨assignNumber s.index inp.indexReadOpens inp.r1 inp.r2, inp.name, pin, 0, 0,
        accountType, idNumber⟩ : Account).Wordy :=
      ⟨hname, word_of_pin pin hp, word_of_type accountType hty,
        word_of_id idNumber hlen (hids idNumber hmem)⟩
    refine ⟨idNumber, accountType, pin, h1, hlen, h2, hty, h3, hp.1, hp.2, hfile, ?_⟩
    rw [getAccount_of_file _ _ _ hw hfile]
    simp only [round2_zero]

/-- Witness for C4: an account created in the sample bank after three rejected entries. -/
theorem create_then_load_witness :
    Word sampleCreate.name ∧ (∀ t ∈ sampleCreate.ids, NoSpace t) ∧
    (createAccount sampleBank sampleCreate).2 = .success ∧
    ∃ idNumber accountType pin,
      readIdNumber sampleCreate.ids = some idNumber ∧ 4 ≤ idNumber.length ∧
      readAccountType sampleCreate.types = some accountType ∧
      (accountType = "Savings".toList ∨ accountType = "Current".toList) ∧
      readNewPin sampleCreate.pins = some pin ∧ pin.length = 4 ∧ pin.all isDigit = true ∧
      (createAccount sampleBank sampleCreate).1.files
          (assignNumber sampleBank.index sampleCreate.indexReadOpens sampleCreate.r1
            sampleCreate.r2) =
        some (saveAccountText
          ⟨assignNumber sampleBank.index sampleCreate.indexReadOpens sampleCreate.r1
            sampleCreate.r2, sampleCreate.name, pin, 0, 0, accountType, idNumber⟩) ∧
      getAccount (createAccount sampleBank sampleCreate).1
          (assignNumber sampleBank.index sampleCreate.indexReadOpens sampleCreate.r1
            sampleCreate.r2) =
        ⟨assignNumber sampleBank.index sampleCreate.indexReadOpens sampleCreate.r1
          sampleCreate.r2, sampleCreate.name, pin, 0, 0, accountType, idNumber⟩ :=
  ⟨by unfold Word NoSpace; decide, by unfold NoSpace; decide, sampleCreate_success,
    create_then_load sampleBank sampleCreate (by unfold Word NoSpace; decide)
      (by unfold NoSpace; decide) sampleCreate_success⟩

/-! ## C5 -/

/-- C6, as stated, fails: in the sample bank (an index of two numbers) the
deletion of account 1000001 passes the ID and PIN checks and is confirmed with 1,
the temporary file does not open, the record file is removed, the error is
reported, and the index afterwards is not the old index without 1000001: it is
the old index. -/
theorem delete_confirmed_index_kept :
    sampleBank.index.length ≤ 100 ∧
    (listAllAccountsAndSelect sampleBank sampleDeleteTempFails.indexOpens
      sampleDeleteTempFails.sels).1 = .chosen 1000001 ∧
    authenticate (getAccount sampleBank 1000001).pin sampleDeleteTempFails.pins = .ok ∧
    sampleDeleteTempFails.confirm = 1 ∧
    (deleteAccount sampleBank sampleDeleteTempFails).2 = .indexError ∧
    (deleteAccount sampleBank sampleDeleteTempFails).1.files 1000001 = none ∧
    (deleteAccount sampleBank sampleDeleteTempFails).1.index = sampleBank.index ∧
    (deleteAccount sampleBank sampleDeleteTempFails).1.index ≠
      sampleBank.index.filter (fun n => n ≠ 1000001) := by
  rw [sampleDeleteTempFails_run]
  have h1 : sampleBank.index = [1000001, 1000002] := rfl
  refine ⟨by simp [h1], ?_, ?_, rfl, rfl, by simp, rfl, by simp [h1]⟩
  · simp [sampleDeleteTempFails, listAllAccountsAndSelect, sampleBank_listing, selectLoop]
  · simp [getAccount_alice, aliceAccount, sampleDeleteTempFails, authenticate, authLoop]

/-- C6, amended: for every index content and every selected account `X` whose
deletion is confirmed (the record loads, the ID and PIN checks pass, the answer
to the confirmation is 1) and for which the index file and the temporary file
both open, `deleteAccount` reports success and the index afterwards equals the
index before with every entry equal to `X` removed, all other entries kept in
the same relative order. -/
theorem delete_rebuilds_index (s : Bank) (inp : DeleteIn) (X : Int)
    (hsel : (listAllAccountsAndSelect s inp.indexOpens inp.sels).1 = .chosen X)
    (hfound : (getAccount s X).accountNumber ≠ 0)
    (hid : 4 ≤ (getAccount s X).idNumber.length ∧
      (getAccount s X).idNumber.drop ((getAccount s X).idNumber.length - 4) = inp.id)
    (hpin : authenticate (getAccount s X).pin inp.pins = .ok)
    (hconfirm : inp.confirm = 1)
    (hindex : inp.indexReadOpens = true) (htemp : inp.tempOpens = true) :
    (deleteAccount s inp).2 = .success ∧
    (deleteAccount s inp).1.index = s.index.filter (fun n => n ≠ X) ∧
    X ∉ (deleteAccount s inp).1.index ∧
    (deleteAccount s inp).1.index.Sublist s.index ∧
    (∀ n, n ≠ X → (deleteAccount s inp).1.index.count n = s.index.count n) := by
  have hrun : deleteAccount s inp =
      (logTransaction
        ⟨Function.update s.files (getAccount s X).accountNumber none,
          s.index.filter (fun n => n ≠ X), s.log⟩
        (.delete X) inp.logOpens, .success) := by
    have hid' : ¬((getAccount s X).idNumber.length < 4 ∨
        (getAccount s X).idNumber.drop ((getAccount s X).idNumber.length - 4) ≠ inp.id) := by
      rintro (h | h)
      · omega
      · exact h hid.2
    unfold deleteAccount
    simp only [hsel, hfound, hid', hpin, hconfirm, hindex, htemp, if_true, if_false, and_self,
      rebuildIndex_eq, List.nil_append]
  have hidx : (deleteAccount s inp).1.index = s.index.filter (fun n => n ≠ X) := by
    rw [hrun]
    simp only [logTransaction_index]
  refine ⟨by rw [hrun], hidx, ?_, ?_, ?_⟩
  · rw [hidx]
    simp
  · rw [hidx]
    exact List.filter_sublist _
  · intro n hn
    rw [hidx, List.count_filter]
    simpa using hn

/-- Witness for C6 as amended: a confirmed deletion in the sample bank, every file opening. -/
theorem delete_rebuilds_index_witness :
    (deleteAccount sampleBank sampleDelete).2 = .success ∧
    (deleteAccount sampleBank sampleDelete).1.index =
      sampleBank.index.filter (fun n => n ≠ 1000001) ∧
    1000001 ∉ (deleteAccount sampleBank sampleDelete).1.index ∧
    (deleteAccount sampleBank sampleDelete).1.index.Sublist sampleBank.index ∧
    (∀ n, n ≠ 1000001 →
      (deleteAccount sampleBank sampleDelete).1.index.count n = sampleBank.index.count n) :=
  delete_rebuilds_index sampleBank sampleDelete 1000001
    (by simp [sampleDelete, listAllAccountsAndSelect, sampleBank_listing, selectLoop])
    (by rw [getAccount_alice]; decide)
    (by rw [getAccount_alice]; decide)
    (by rw [getAccount_alice]; decide)
    rfl rfl rfl

/-! ## C7 -/

/-- C7: three wrong PINs abort every authenticated operation. Let `num` be the
account selected in `deposit`, `withdraw` or `deleteAccount`, or the sender
selected in `remittance`, and let the first three PINs read all differ from the
PIN stored for `num`. Then the operation ends with the bank (every record file,
the index and the log) exactly as before and without reporting success, and
when it got as far as the PIN prompt it reports that the attempts are used up.
Moreover no operation reads more than three PINs: its result is the same when
everything after the third PIN is cut off. -/
theorem three_wrong_pins_abort (s : Bank) (num : Int) (p1 p2 p3 : List Char)
    (rest : List (List Char)) (h1 : p1 ≠ (getAccount s num).pin)
    (h2 : p2 ≠ (getAccount s num).pin) (h3 : p3 ≠ (getAccount s num).pin) :
    (∀ inp : CashIn, inp.pins = p1 :: p2 :: p3 :: rest →
      (listAllAccountsAndSelect s inp.indexOpens inp.sels).1 = .chosen num →
      ((deposit s inp).1 = s ∧ (deposit s inp).2 ≠ .success ∧
        ((getAccount s num).accountNumber ≠ 0 → (getAccount s num).status ≠ 1 →
          (deposit s inp).2 = .maxAttempts)) ∧
      ((withdraw s inp).1 = s ∧ (withdraw s inp).2 ≠ .success ∧
        ((getAccount s num).accountNumber ≠ 0 → (getAccount s num).status ≠ 1 →
          (withdraw s inp).2 = .maxAttempts))) ∧
    (∀ inp : RemitIn, inp.pins = p1 :: p2 :: p3 :: rest →
      (listAllAccountsAndSelect s inp.senderIndexOpens inp.sels).1 = .chosen num →
      (remittance s inp).1 = s ∧ (remittance s inp).2 ≠ .success ∧
      (∀ receiver,
        (listAllAccountsAndSelect s inp.receiverIndexOpens
          (listAllAccountsAndSelect s inp.senderIndexOpens inp.sels).2).1 = .chosen receiver →
        num ≠ receiver → (getAccount s num).accountNumber ≠ 0 →
        (getAccount s receiver).accountNumber ≠ 0 → (getAccount s num).status ≠ 1 →
        (getAccount s receiver).status ≠ 1 → (remittance s inp).2 = .maxAttempts)) ∧
    (∀ inp : DeleteIn, inp.pins = p1 :: p2 :: p3 :: rest →
      (listAllAccountsAndSelect s inp.indexOpens inp.sels).1 = .chosen num →
      (deleteAccount s inp).1 = s ∧ (deleteAccount s inp).2 ≠ .success ∧
      ((getAccount s num).accountNumber ≠ 0 →
        (4 ≤ (getAccount s num).idNumber.length ∧
          (getAccount s num).idNumber.drop ((getAccount s num).idNumber.length - 4) = inp.id) →
        (deleteAccount s inp).2 = .maxAttempts)) ∧
    (∀ inp : CashIn, deposit s { inp with pins := inp.pins.take 3 } = deposit s inp ∧
      withdraw s { inp with pins := inp.pins.take 3 } = withdraw s inp) ∧
    (∀ inp : RemitIn, remittance s { inp with pins := inp.pins.take 3 } = remittance s inp) ∧
    (∀ inp : DeleteIn,
      deleteAccount s { inp with pins := inp.pins.take 3 } = deleteAccount s inp) := by
  have hauth : authenticate (getAccount s num).pin (p1 :: p2 :: p3 :: rest) = .failed :=
    authenticate_wrong _ _ _ _ _ h1 h2 h3
  refine ⟨?_, ?_, ?_, fun inp => ⟨deposit_take_pins s inp, withdraw_take_pins s inp⟩,
    remittance_take_pins s, deleteAccount_take_pins s⟩
  · intro inp hp hsel
    rw [← hp] at hauth
    exact ⟨deposit_auth_failed s inp num hsel hauth, withdraw_auth_failed s inp num hsel hauth⟩
  · intro inp hp hsel
    rw [← hp] at hauth
    exact remittance_auth_failed s inp num hsel hauth
  · intro inp hp hsel
    rw [← hp] at hauth
    exact deleteAccount_auth_failed s inp num hsel hauth

/-- Witness for C7: a deposit into the first sample account with three wrong PINs. -/
theorem three_wrong_pins_abort_witness :
    "0000".toList ≠ (getAccount sampleBank 1000001).pin ∧
    "1111".toList ≠ (getAccount sampleBank 1000001).pin ∧
    "2222".toList ≠ (getAccount sampleBank 1000001).pin ∧
    (deposit sampleBank sampleWrongPins).1 = sampleBank ∧
    (deposit sampleBank sampleWrongPins).2 = .maxAttempts := by
  have e1 : "0000".toList ≠ (getAccount sampleBank 1000001).pin := by
    rw [getAccount_alice]; decide
  have e2 : "1111".toList ≠ (getAccount sampleBank 1000001).pin := by
    rw [getAccount_alice]; decide
  have e3 : "2222".toList ≠ (getAccount sampleBank 1000001).pin := by
    rw [getAccount_alice]; decide
  have hsel : (listAllAccountsAndSelect sampleBank sampleWrongPins.indexOpens
      sampleWrongPins.sels).1 = .chosen 1000001 := by
    simp [sampleWrongPins, listAllAccountsAndSelect, sampleBank_listing, selectLoop]
  have h := ((three_wrong_pins_abort sampleBank 1000001 _ _ _ ["1234".toList] e1 e2 e3).1
    sampleWrongPins rfl hsel).1
  exact ⟨e1, e2, e3, h.1, h.2.2 (by rw [getAccount_alice]; decide)
    (by rw [getAccount_alice]; decide)⟩

/-! ## C8 -/

/-- C8 fails on the code: in the sample bank, whose index lists 1000001 and
1000002, a creation whose random candidate is 1000001 is assigned 1000002, a
number that is already in the index; the creation succeeds, the record of the
existing account 1000002 ("bob") is overwritten by the new one ("carol"), and
1000002 is listed twice. -/
theorem createAccount_reuses_number :
    candidateNumber sampleCreateCollides.r1 sampleCreateCollides.r2 = 1000001 ∧
    assignNumber sampleBank.index sampleCreateCollides.indexReadOpens sampleCreateCollides.r1
      sampleCreateCollides.r2 = 1000002 ∧
    1000002 ∈ sampleBank.index ∧
    (getAccount sampleBank 1000002).accountName = "bob".toList ∧
    (createAccount sampleBank sampleCreateCollides).2 = .success ∧
    (getAccount (createAccount sampleBank sampleCreateCollides).1 1000002).accountName =
      "carol".toList ∧
    (createAccount sampleBank sampleCreateCollides).1.index = [1000001, 1000002, 1000002] := by
  have hnum : assignNumber sampleBank.index sampleCreateCollides.indexReadOpens
      sampleCreateCollides.r1 sampleCreateCollides.r2 = 1000002 := by decide
  have hsucc : (createAccount sampleBank sampleCreateCollides).2 = .success := by decide
  refine ⟨by decide, hnum, by decide, by rw [getAccount_bob]; rfl, hsucc, ?_, by decide⟩
  have h := (createAccount_loads_name sampleBank sampleCreateCollides
    (by unfold Word NoSpace; decide) (by unfold NoSpace; decide) hsucc).1
  rw [hnum] at h
  exact h

/-! ## C9 -/

/-- C9 fails on the code: the random draws `2` and `899999999` give the candidate
999999999; created twice in a row from the empty bank, the first account gets
999999999 and the second, after the collision, gets 1000000000, which has ten
digits. -/
theorem createAccount_ten_digits :
    candidateNumber sampleCreateLargest.r1 sampleCreateLargest.r2 = 999999999 ∧
    (createAccount emptyBank sampleCreateLargest).1.index = [999999999] ∧
    (createAccount (createAccount emptyBank sampleCreateLargest).1 sampleCreateLargest).2 =
      .success ∧
    assignNumber (createAccount emptyBank sampleCreateLargest).1.index
      sampleCreateLargest.indexReadOpens sampleCreateLargest.r1 sampleCreateLargest.r2 =
      1000000000 ∧
    (createAccount (createAccount emptyBank sampleCreateLargest).1 sampleCreateLargest).1.index =
      [999999999, 1000000000] ∧
    (getAccount (createAccount (createAccount emptyBank sampleCreateLargest).1
      sampleCreateLargest).1 1000000000).accountNumber = 1000000000 ∧
    ¬ ((1000000 : Int) ≤ 1000000000 ∧ (1000000000 : Int) ≤ 999999999) := by
  have hnum : assignNumber (createAccount emptyBank sampleCreateLargest).1.index
      sampleCreateLargest.indexReadOpens sampleCreateLargest.r1 sampleCreateLargest.r2 =
      1000000000 := by decide
  have hsucc : (createAccount (createAccount emptyBank sampleCreateLargest).1
      sampleCreateLargest).2 = .success := by decide
  refine ⟨by decide, by decide, hsucc, hnum, by decide, ?_, by decide⟩
  have h := (createAccount_loads_name (createAccount emptyBank sampleCreateLargest).1
    sampleCreateLargest (by unfold Word NoSpace; decide) (by unfold NoSpace; decide) hsucc).2
  rw [hnum] at h
  exact h

/-! ## C10 -/

/-- C10: an audit entry is written only after successful persistence.
In `deposit` and in `withdraw`: if the record file does not open in `saveAccount`,
the whole bank, the log included, is as before, success is not reported, and
when the run would have succeeded with a working save the failure is reported;
the log changes only if the save worked and success is reported, and then it
grows by exactly the entry of this operation. In `remittance`: if the sender's
or the receiver's save fails, the log is as before, success is not reported
and, when the run would have succeeded with working saves, the failure is
reported; success or a changed log imply that both saves worked. -/
theorem audit_only_after_save (s : Bank) (c : CashIn) (r : RemitIn) :
    (c.saveOpens = false →
      ((deposit s c).1 = s ∧ (deposit s c).2 ≠ .success ∧
        ((deposit s { c with saveOpens := true }).2 = .success →
          (deposit s c).2 = .saveFailed)) ∧
      ((withdraw s c).1 = s ∧ (withdraw s c).2 ≠ .success ∧
        ((withdraw s { c with saveOpens := true }).2 = .success →
          (withdraw s c).2 = .saveFailed))) ∧
    ((deposit s c).1.log ≠ s.log →
      c.saveOpens = true ∧ (deposit s c).2 = .success ∧
      ∃ num a, (deposit s c).1.log = s.log ++ [.deposit num a] ∧
        (deposit s c).1.files (getAccount s num).accountNumber =
          some (saveAccountText { getAccount s num with
            balance := (getAccount s num).balance + a })) ∧
    ((withdraw s c).1.log ≠ s.log →
      c.saveOpens = true ∧ (withdraw s c).2 = .success ∧
      ∃ num a, (withdraw s c).1.log = s.log ++ [.withdrawal num a] ∧
        (withdraw s c).1.files (getAccount s num).accountNumber =
          some (saveAccountText { getAccount s num with
            balance := (getAccount s num).balance - a })) ∧
    ((r.saveSenderOpens = false ∨ r.saveReceiverOpens = false) →
      (remittance s r).1.log = s.log ∧ (remittance s r).2 ≠ .success ∧
      ((remittance s { r with saveSenderOpens := true, saveReceiverOpens := true }).2 =
          .success → (remittance s r).2 = .saveFailed)) ∧
    (((remittance s r).2 = .success ∨ (remittance s r).1.log ≠ s.log) →
      r.saveSenderOpens = true ∧ r.saveReceiverOpens = true ∧ (remittance s r).2 = .success ∧
      ∃ sender receiver a fee, (remittance s r).1.log =
        (if r.logOpens then s.log ++ [.remittance sender receiver a fee] else s.log)) := by
  refine ⟨fun h => ⟨deposit_save_fails s c h, withdraw_save_fails s c h⟩, ?_, ?_,
    fun h => ?_, ?_⟩
  · intro hlog
    rcases deposit_cases s c with ⟨h, _⟩ | ⟨num, a, _, _, _, _, _, hsave, heq⟩
    · rw [h] at hlog
      exact absurd rfl hlog
    · refine ⟨hsave, by rw [heq], num, a, ?_, ?_⟩
      · rw [heq] at hlog ⊢
        cases hl : c.logOpens with
        | false => rw [hl] at hlog; exact absurd rfl hlog
        | true => rfl
      · rw [heq]
        simp [logTransaction_files, saveAccount_true]
  · intro hlog
    rcases withdraw_cases s c with ⟨h, _⟩ | ⟨num, a, _, _, _, _, _, hsave, heq⟩
    · rw [h] at hlog
      exact absurd rfl hlog
    · refine ⟨hsave, by rw [heq], num, a, ?_, ?_⟩
      · rw [heq] at hlog ⊢
        cases hl : c.logOpens with
        | false => rw [hl] at hlog; exact absurd rfl hlog
        | true => rfl
      · rw [heq]
        simp [logTransaction_files, saveAccount_true]
  · obtain ⟨h1, _, h3, h4⟩ := remittance_save_fails s r h
    exact ⟨h1, h3, h4⟩
  · intro hyp
    rcases remittance_cases s r with ⟨h, hns⟩ |
      ⟨sender, sels1, receiver, a, fee, _, _, _, _, _, _, _, _, _, hs1, hcase⟩
    · rcases hyp with hyp | hyp
      · exact absurd hyp hns
      · rw [h] at hyp
        exact absurd rfl hyp
    · rcases hcase with ⟨_, heq⟩ | ⟨hs2, heq⟩
      · rcases hyp with hyp | hyp
        · rw [heq] at hyp
          simp at hyp
        · rw [heq] at hyp
          simp [saveAccount_true] at hyp
      · refine ⟨hs1, hs2, by rw [heq], sender, receiver, a, fee, ?_⟩
        rw [heq]
        unfold logTransaction
        split <;> simp [saveAccount_true]

/-- Witness for C10: a deposit into the first sample account whose save fails. -/
theorem audit_only_after_save_witness :
    sampleDepositSaveFails.saveOpens = false ∧
    (deposit sampleBank sampleDepositSaveFails).1 = sampleBank ∧
    (deposit sampleBank sampleDepositSaveFails).2 = .saveFailed := by
  have h := ((audit_only_after_save sampleBank sampleDepositSaveFails sampleRemit).1 rfl).1
  have hs : (deposit sampleBank { sampleDepositSaveFails with saveOpens := true }).2 =
      .success := by
    have e : ({ sampleDepositSaveFails with saveOpens := true } : CashIn) = sampleDeposit := rfl
    rw [e, sampleDeposit_run]
  exact ⟨rfl, h.1, h.2.2 hs⟩

/-! ## C11 -/

/-- C11: the index/record consistency invariant is preserved. In a store whose
record files are as `saveAccount` writes them and in which the numbers in the
index are exactly the numbers that have a record file: the same holds again
after any `createAccount` in which the index opens for appending, after any
`deleteAccount` in which the index file and the temporary file open, and after
any `deposit`, `withdraw` or `remittance` (whatever opens or fails there); the
store also keeps its form (for `createAccount`, when the name read is a word and
the IDs read have no white space, as `scanf` delivers them). -/
theorem index_record_consistency (s : Bank) (hwf : s.WellFormed) (hc : s.Consistent) :
    (∀ inp : CreateIn, inp.indexAppendOpens = true →
      (createAccount s inp).1.Consistent ∧
      (Word inp.name → (∀ t ∈ inp.ids, NoSpace t) → (createAccount s inp).1.WellFormed)) ∧
    (∀ inp : DeleteIn, inp.indexReadOpens = true → inp.tempOpens = true →
      (deleteAccount s inp).1.Consistent ∧ (deleteAccount s inp).1.WellFormed) ∧
    (∀ inp : CashIn,
      ((deposit s inp).1.Consistent ∧ (deposit s inp).1.WellFormed) ∧
      ((withdraw s inp).1.Consistent ∧ (withdraw s inp).1.WellFormed)) ∧
    (∀ inp : RemitIn, (remittance s inp).1.Consistent ∧ (remittance s inp).1.WellFormed) := by
  refine ⟨fun inp h => ⟨createAccount_consistent s hc inp h,
      fun h1 h2 => createAccount_wellFormed s hwf inp h1 h2⟩,
    fun inp h1 h2 => ⟨deleteAccount_consistent s hwf hc inp h1 h2,
      deleteAccount_wellFormed s hwf inp⟩,
    fun inp => ⟨⟨deposit_consistent s hwf hc inp, deposit_wellFormed s hwf inp⟩,
      ⟨withdraw_consistent s hwf hc inp, withdraw_wellFormed s hwf inp⟩⟩,
    fun inp => ⟨remittance_consistent s hwf hc inp, remittance_wellFormed s hwf inp⟩⟩

/-- Witness for C11: the sample bank, after a confirmed deletion, after a creation
whose number collides, and after the sample remittance. -/
theorem index_record_consistency_witness :
    sampleBank.WellFormed ∧ sampleBank.Consistent ∧
    (deleteAccount sampleBank sampleDelete).1.Consistent ∧
    (createAccount sampleBank sampleCreateCollides).1.Consistent ∧
    (remittance sampleBank sampleRemit).1.Consistent :=
  ⟨sampleBank_wellFormed, sampleBank_consistent,
    ((index_record_consistency sampleBank sampleBank_wellFormed sampleBank_consistent).2.1
      sampleDelete rfl rfl).1,
    ((index_record_consistency sampleBank sampleBank_wellFormed sampleBank_consistent).1
      sampleCreateCollides rfl).1,
    ((index_record_consistency sampleBank sampleBank_wellFormed sampleBank_consistent).2.2.2
      sampleRemit).1⟩

/-! ## C12 -/

/-- C12: `deleteAccount` changes state only after all checks pass. (1) If the bank
after `deleteAccount` differs from the bank before, then an account was
selected and loaded, its stored ID has at least 4 characters and the string
read equals the last 4, one of the first three PINs read equals the stored PIN,
and the confirmation read is 1. (2) For the selected account: if the identity
check fails, or none of the first three PINs read is the stored PIN, or the
confirmation is not 1, the bank (record files, index, log) is exactly as
before and no success is reported. (3) When every check passes, the
confirmation is 1 and the two index files open, the record file is removed,
the index rebuilt and success reported, whatever the balance is. -/
theorem delete_only_after_checks (s : Bank) (inp : DeleteIn) :
    ((deleteAccount s inp).1 ≠ s →
      ∃ num, (listAllAccountsAndSelect s inp.indexOpens inp.sels).1 = .chosen num ∧
        (getAccount s num).accountNumber ≠ 0 ∧
        4 ≤ (getAccount s num).idNumber.length ∧
        (getAccount s num).idNumber.drop ((getAccount s num).idNumber.length - 4) = inp.id ∧
        (∃ p ∈ inp.pins.take 3, p = (getAccount s num).pin) ∧ inp.confirm = 1) ∧
    (∀ num, (listAllAccountsAndSelect s inp.indexOpens inp.sels).1 = .chosen num →
      ((getAccount s num).idNumber.length < 4 ∨
        (getAccount s num).idNumber.drop ((getAccount s num).idNumber.length - 4) ≠ inp.id ∨
        (∀ p ∈ inp.pins.take 3, p ≠ (getAccount s num).pin) ∨ inp.confirm ≠ 1) →
      (deleteAccount s inp).1 = s ∧ (deleteAccount s inp).2 ≠ .success) ∧
    (∀ num, (listAllAccountsAndSelect s inp.indexOpens inp.sels).1 = .chosen num →
      (getAccount s num).accountNumber ≠ 0 →
      4 ≤ (getAccount s num).idNumber.length →
      (getAccount s num).idNumber.drop ((getAccount s num).idNumber.length - 4) = inp.id →
      authenticate (getAccount s num).pin inp.pins = .ok → inp.confirm = 1 →
      inp.indexReadOpens = true → inp.tempOpens = true →
      (deleteAccount s inp).2 = .success ∧
      (deleteAccount s inp).1.files =
        Function.update s.files (getAccount s num).accountNumber none ∧
      (deleteAccount s inp).1.index = s.index.filter (fun n => n ≠ num) ∧
      (deleteAccount s inp).1.log =
        (if inp.logOpens then s.log ++ [.delete num] else s.log)) := by
  refine ⟨?_, ?_, ?_⟩
  · intro hne
    rcases deleteAccount_cases s inp with ⟨h, _, _⟩ | ⟨num, h1, h2, h3, h4, h5, h6, _⟩
    · exact absurd h hne
    · exact ⟨num, h1, h2, h3, h4, authenticate_ok _ _ h5, h6⟩
  · intro num hsel hfail
    rcases deleteAccount_cases s inp with ⟨h, hs, _⟩ | ⟨num', h1, h2, h3, h4, h5, h6, _⟩
    · exact ⟨h, hs⟩
    · rw [hsel] at h1
      simp only [Selection.chosen.injEq] at h1
      subst h1
      rcases hfail with hf | hf | hf | hf
      · omega
      · exact absurd h4 hf
      · obtain ⟨p, hp, e⟩ := authenticate_ok _ _ h5
        exact absurd e (hf p hp)
      · exact absurd h6 hf
  · intro num hsel h0 hlen hid hauth hconfirm hindex htemp
    have hid' : ¬((getAccount s num).idNumber.length < 4 ∨
        (getAccount s num).idNumber.drop ((getAccount s num).idNumber.length - 4) ≠ inp.id) := by
      rintro (h | h)
      · omega
      · exact h hid
    have hrun : deleteAccount s inp =
        (logTransaction
          ⟨Function.update s.files (getAccount s num).accountNumber none,
            s.index.filter (fun n => n ≠ num), s.log⟩
          (.delete num) inp.logOpens, .success) := by
      unfold deleteAccount
      simp only [hsel, h0, hid', hauth, hconfirm, hindex, htemp, if_true, if_false, and_self,
        rebuildIndex_eq, List.nil_append]
    rw [hrun]
    refine ⟨rfl, by rw [logTransaction_files], by rw [logTransaction_index], ?_⟩
    unfold logTransaction
    split <;> rfl

/-- Witness for C12: the first sample account holds 2000 and is deleted once the ID,
the PIN and the confirmation are right. -/
theorem delete_only_after_checks_witness :
    0 < (getAccount sampleBank 1000001).balance ∧
    (deleteAccount sampleBank sampleDelete).2 = .success ∧
    (deleteAccount sampleBank sampleDelete).1.files =
      Function.update sampleBank.files (getAccount sampleBank 1000001).accountNumber none ∧
    (deleteAccount sampleBank sampleDelete).1.index =
      sampleBank.index.filter (fun n => n ≠ 1000001) ∧
    (deleteAccount sampleBank sampleDelete).1.log =
      (if sampleDelete.logOpens then sampleBank.log ++ [.delete 1000001] else sampleBank.log) :=
  ⟨by rw [getAccount_alice]; unfold aliceAccount; norm_num,
    (delete_only_after_checks sampleBank sampleDelete).2.2 1000001
      (by simp [sampleDelete, listAllAccountsAndSelect, sampleBank_listing, selectLoop])
      (by rw [getAccount_alice]; decide)
      (by rw [getAccount_alice]; decide)
      (by rw [getAccount_alice]; decide)
      (by rw [getAccount_alice]; decide)
      rfl rfl rfl⟩

/-! ## C13 -/

/-- C13: closed accounts are excluded from financial operations. Let `X` be an
account that loads with status 1 (Closed). (1) `deposit` and `withdraw` with `X`
selected end with "Account closed!" and the bank (record files, index, log)
exactly as before, whatever PINs and amounts are supplied. (2) `remittance` with
`X` selected as sender, and (3) `remittance` with `X` selected as receiver, end
with the bank exactly as before and with one of the messages printed before the
PIN loop; when the two accounts differ and both load, the message is the
closed-account one; the result is the same for every supply of PINs, amounts
and retry answers, so no PIN is requested. -/
theorem closed_accounts_rejected (s : Bank) (X : Int)
    (hfound : (getAccount s X).accountNumber ≠ 0) (hclosed : (getAccount s X).status = 1) :
    (∀ inp : CashIn, (listAllAccountsAndSelect s inp.indexOpens inp.sels).1 = .chosen X →
      deposit s inp = (s, .closed) ∧ withdraw s inp = (s, .closed) ∧
      (∀ pins amounts,
        deposit s { inp with pins := pins, amounts := amounts } = (s, .closed) ∧
        withdraw s { inp with pins := pins, amounts := amounts } = (s, .closed))) ∧
    (∀ (inp : RemitIn) (sels1 : List (Option Int)) (receiver : Int),
      listAllAccountsAndSelect s inp.senderIndexOpens inp.sels = (.chosen X, sels1) →
      (listAllAccountsAndSelect s inp.receiverIndexOpens sels1).1 = .chosen receiver →
      (remittance s inp).1 = s ∧
      ((remittance s inp).2 = .sameAccount ∨ (remittance s inp).2 = .receiverNotFound ∨
        (remittance s inp).2 = .closed) ∧
      (X ≠ receiver → (getAccount s receiver).accountNumber ≠ 0 →
        (remittance s inp).2 = .closed) ∧
      (∀ pins amounts retries,
        remittance s { inp with pins := pins, amounts := amounts, retries := retries } =
          remittance s inp)) ∧
    (∀ (inp : RemitIn) (sels1 : List (Option Int)) (sender : Int),
      listAllAccountsAndSelect s inp.senderIndexOpens inp.sels = (.chosen sender, sels1) →
      (listAllAccountsAndSelect s inp.receiverIndexOpens sels1).1 = .chosen X →
      (remittance s inp).1 = s ∧
      ((remittance s inp).2 = .sameAccount ∨ (remittance s inp).2 = .notFound ∨
        (remittance s inp).2 = .closed ∨ (remittance s inp).2 = .receiverClosed) ∧
      (sender ≠ X → (getAccount s sender).accountNumber ≠ 0 →
        (getAccount s sender).status ≠ 1 → (remittance s inp).2 = .receiverClosed) ∧
      (∀ pins amounts retries,
        remittance s { inp with pins := pins, amounts := amounts, retries := retries } =
          remittance s inp)) := by
  refine ⟨?_, ?_, ?_⟩
  · intro inp hsel
    exact ⟨deposit_closed s inp X hsel hfound hclosed, withdraw_closed s inp X hsel hfound hclosed,
      fun pins amounts => ⟨deposit_closed s _ X hsel hfound hclosed,
        withdraw_closed s _ X hsel hfound hclosed⟩⟩
  · intro inp sels1 receiver h1 h2
    obtain ⟨a, b, c, d⟩ := remittance_closed s inp X receiver sels1 h1 h2 (Or.inl hclosed)
    refine ⟨a, ?_, fun hne h0r => (c hne hfound h0r).1 hclosed, d⟩
    rcases b with b | b | b | b | b
    · exact Or.inl b
    · exfalso
      by_cases hsr : X = receiver
      · unfold remittance at b
        simp [h1, h2, hsr] at b
      · unfold remittance at b
        simp only [h1, h2, hsr, hfound, if_false] at b
        by_cases h0r : (getAccount s receiver).accountNumber = 0
        · simp [h0r] at b
        · simp [h0r, hclosed] at b
    · exact Or.inr (Or.inl b)
    · exact Or.inr (Or.inr b)
    · exfalso
      by_cases hsr : X = receiver
      · unfold remittance at b
        simp [h1, h2, hsr] at b
      · unfold remittance at b
        simp only [h1, h2, hsr, hfound, if_false] at b
        by_cases h0r : (getAccount s receiver).accountNumber = 0
        · simp [h0r] at b
        · simp [h0r, hclosed] at b
  · intro inp sels1 sender h1 h2
    obtain ⟨a, b, c, d⟩ := remittance_closed s inp sender X sels1 h1 h2 (Or.inr hclosed)
    refine ⟨a, ?_, fun hne h0 hs => (c hne h0 hfound).2 hs, d⟩
    rcases b with b | b | b | b | b
    · exact Or.inl b
    · exact Or.inr (Or.inl b)
    · exfalso
      by_cases hsr : sender = X
      · unfold remittance at b
        simp [h1, h2, hsr] at b
      · unfold remittance at b
        simp only [h1, h2, hsr, if_false] at b
        by_cases h0 : (getAccount s sender).accountNumber = 0
        · simp [h0] at b
        · simp only [h0, hfound, if_false] at b
          by_cases hs : (getAccount s sender).status = 1
          · simp [hs] at b
          · simp [hs, hclosed] at b
    · exact Or.inr (Or.inr (Or.inl b))
    · exact Or.inr (Or.inr (Or.inr b))

/-- Witness for C13: in the bank with the closed account, a deposit into it with
its right PIN, and transfers from it and to it, are rejected. -/
theorem closed_accounts_rejected_witness :
    (getAccount closedBank 1000003).accountNumber ≠ 0 ∧
    (getAccount closedBank 1000003).status = 1 ∧
    deposit closedBank closedDeposit = (closedBank, .closed) ∧
    withdraw closedBank closedDeposit = (closedBank, .closed) ∧
    remittance closedBank closedRemitSender = (closedBank, .closed) ∧
    remittance closedBank closedRemitReceiver = (closedBank, .receiverClosed) := by
  have hf : (getAccount closedBank 1000003).accountNumber ≠ 0 := by
    rw [getAccount_closedBank_closed]; decide
  have hc : (getAccount closedBank 1000003).status = 1 := by
    rw [getAccount_closedBank_closed]; rfl
  have h := closed_accounts_rejected closedBank 1000003 hf hc
  have hsel : (listAllAccountsAndSelect closedBank closedDeposit.indexOpens
      closedDeposit.sels).1 = .chosen 1000003 := by
    simp [closedDeposit, listAllAccountsAndSelect, closedBank_listing, selectLoop]
  have hs1 : listAllAccountsAndSelect closedBank closedRemitSender.senderIndexOpens
      closedRemitSender.sels = (.chosen 1000003, [some 1]) := by
    simp [closedRemitSender, listAllAccountsAndSelect, closedBank_listing, selectLoop]
  have hs2 : (listAllAccountsAndSelect closedBank closedRemitSender.receiverIndexOpens
      [some 1]).1 = .chosen 1000001 := by
    simp [closedRemitSender, listAllAccountsAndSelect, closedBank_listing, selectLoop]
  have hr1 : listAllAccountsAndSelect closedBank closedRemitReceiver.senderIndexOpens
      closedRemitReceiver.sels = (.chosen 1000001, [some 2]) := by
    simp [closedRemitReceiver, listAllAccountsAndSelect, closedBank_listing, selectLoop]
  have hr2 : (listAllAccountsAndSelect closedBank closedRemitReceiver.receiverIndexOpens
      [some 2]).1 = .chosen 1000003 := by
    simp [closedRemitReceiver, listAllAccountsAndSelect, closedBank_listing, selectLoop]
  obtain ⟨d1, d2, _⟩ := h.1 closedDeposit hsel
  obtain ⟨a1, _, a3, _⟩ := h.2.1 closedRemitSender [some 1] 1000001 hs1 hs2
  obtain ⟨b1, _, b3, _⟩ := h.2.2 closedRemitReceiver [some 2] 1000001 hr1 hr2
  refine ⟨hf, hc, d1, d2, Prod.ext a1 ?_, Prod.ext b1 ?_⟩
  · exact a3 (by decide) (by rw [getAccount_closedBank_alice]; decide)
  · exact b3 (by decide) (by rw [getAccount_closedBank_alice]; decide)
      (by rw [getAccount_closedBank_alice]; decide)

/-! ## C14 -/

end BankSystem
